import Mathlib

/-!
# Verification of the SESHP listening-history aggregation core (`src/app.js`)

This file gives a shallow embedding, in Lean 4, of the aggregation and
ranking engine of `src/app.js`: the record classifier (`isSongRecord`),
the event normalizer (`cleanString`, `sanitizeMs`, `parseTimestamp`,
`timestampToMonthKey`), the single-pass aggregator of `buildReport`, the
ranking comparators, the peak selector (`pickPeak`) and the report
assembler.  JavaScript's loosely typed values are modelled by `JSValue`,
JS numbers by `JSNumber` (NaN, the two infinities, and finite values as
exact rationals — float rounding is not modelled), and JS `Map`s by
insertion-ordered association lists, which matches the iteration-order
guarantee of ECMAScript `Map`.

The JS builtins the source relies on are modelled from the ECMAScript
specification: `new Date(string)` as the ECMAScript Date Time String
Format (`YYYY[-MM[-DD]][THH:mm[:ss[.fff]][Z|±HH:mm]]`, four-digit years;
date-times without a zone designator are interpreted in the host time
zone, which is threaded through as an explicit UTC-offset-in-minutes
parameter `tz`), `Number(string)` as the decimal/hex/octal/binary string
numeric literal grammar, `Array.prototype.sort` as a stable sort
(insertion sort), and `String.prototype.localeCompare` / string `<` as
lexicographic comparison by code point.
-/
/-! ## JS values and numbers -/
/-- Model of a JavaScript number: NaN, the infinities, or a finite value
(modelled as an exact rational; IEEE-754 rounding is not modelled). -/
inductive JSNumber where
  | nan : JSNumber
  | posInf : JSNumber
  | negInf : JSNumber
  | finite : ℚ → JSNumber
deriving DecidableEq, Repr

/-- Model of a loosely-typed JavaScript value as they occur in the raw
records consumed by the core. -/
inductive JSValue where
  | undef : JSValue
  | null : JSValue
  | bool : Bool → JSValue
  | num : JSNumber → JSValue
  | str : String → JSValue
deriving DecidableEq, Repr

/-- `Number.isFinite`. -/
def JSNumber.isFinite : JSNumber → Bool
  | .finite _ => true
  | _ => false

/-- JavaScript truthiness (`Boolean(v)`). -/
def JSValue.truthy : JSValue → Bool
  | .undef => false
  | .null => false
  | .bool b => b
  | .num .nan => false
  | .num .posInf => true
  | .num .negInf => true
  | .num (.finite q) => decide (q ≠ 0)
  | .str s => decide (s ≠ "")

/-- The WhiteSpace and LineTerminator code points trimmed by
`String.prototype.trim` and skipped by string-to-number coercion
(space, tab, LF, VT, FF, CR, NBSP, Ogham space, the U+2000 to U+200A
range, LS, PS, NNBSP, MMSP, ideographic space, BOM). -/
def isJsWhitespace (c : Char) : Bool :=
  c.toNat = 0x20 ∨ c.toNat = 0x9 ∨ c.toNat = 0xA ∨ c.toNat = 0xB ∨
  c.toNat = 0xC ∨ c.toNat = 0xD ∨ c.toNat = 0xA0 ∨ c.toNat = 0x1680 ∨
  (0x2000 ≤ c.toNat ∧ c.toNat ≤ 0x200A) ∨
  c.toNat = 0x2028 ∨ c.toNat = 0x2029 ∨ c.toNat = 0x202F ∨
  c.toNat = 0x205F ∨ c.toNat = 0x3000 ∨ c.toNat = 0xFEFF

/-- Trim on the character-list level. -/
def jsTrimList (l : List Char) : List Char :=
  ((l.dropWhile isJsWhitespace).reverse.dropWhile isJsWhitespace).reverse

/-- `String.prototype.trim`. -/
def jsTrim (s : String) : String :=
  String.mk (jsTrimList s.toList)

/-- Value of a list of digits in a given base (most significant first). -/
def digitsVal (base : ℕ) (l : List Char) : ℕ :=
  l.foldl (fun a c => a * base + (c.toNat - 48)) 0

/-- Value of a list of hex digits (most significant first). -/
def hexDigitsVal (l : List Char) : ℕ :=
  l.foldl (fun a c =>
    a * 16 + (if '0' ≤ c ∧ c ≤ '9' then c.toNat - 48
      else if 'a' ≤ c ∧ c ≤ 'f' then c.toNat - 87
      else c.toNat - 55)) 0

def isHexDigit (c : Char) : Bool :=
  ('0' ≤ c ∧ c ≤ '9') ∨ ('a' ≤ c ∧ c ≤ 'f') ∨ ('A' ≤ c ∧ c ≤ 'F')

def isOctalDigit (c : Char) : Bool := '0' ≤ c ∧ c ≤ '7'

def isBinaryDigit (c : Char) : Bool := c = '0' ∨ c = '1'

/-- Parse the exponent part of a decimal literal (after the `e`/`E`):
optional sign then one or more digits, which must consume the rest. -/
def parseExponent (l : List Char) : Option ℤ :=
  let (sign, rest) : ℤ × List Char :=
    match l with
    | '+' :: r => (1, r)
    | '-' :: r => (-1, r)
    | r => (1, r)
  if rest ≠ [] ∧ rest.all Char.isDigit then
    some (sign * (digitsVal 10 rest : ℤ))
  else
    none

/-- Parse an unsigned decimal literal `digits [. digits] [exp]` or
`. digits [exp]`, which must consume the whole input.  The mathematical
value of the literal, `mantissa * 10 ^ (exponent - fractionLength)`, is
assembled with `Rat.ofInt` / `Rat.divInt` (these reduce well in the
kernel, unlike the rational field operations). -/
def parseUnsignedDecimal (l : List Char) : Option ℚ :=
  let intDigits := l.takeWhile Char.isDigit
  let rest1 := l.dropWhile Char.isDigit
  let core : Option (ℕ × ℕ × List Char) :=
    match rest1 with
    | '.' :: r =>
      let fracDigits := r.takeWhile Char.isDigit
      let rest2 := r.dropWhile Char.isDigit
      if intDigits = [] ∧ fracDigits = [] then none
      else some (digitsVal 10 (intDigits ++ fracDigits), fracDigits.length, rest2)
    | r =>
      if intDigits = [] then none
      else some (digitsVal 10 intDigits, 0, r)
  match core with
  | none => none
  | some (mant, fracLen, rest) =>
    let value : ℤ → ℚ := fun e =>
      let e2 : ℤ := e - fracLen
      if 0 ≤ e2 then Rat.ofInt ((mant : ℤ) * 10 ^ e2.toNat)
      else Rat.divInt (mant : ℤ) (10 ^ (-e2).toNat)
    match rest with
    | [] => some (value 0)
    | 'e' :: r => (parseExponent r).map value
    | 'E' :: r => (parseExponent r).map value
    | _ => none

/-- Parse an unsigned part of a string numeric literal: `Infinity` or an
unsigned decimal literal. -/
def parseUnsignedNumeric (l : List Char) : Option JSNumber :=
  if l = "Infinity".toList then some .posInf
  else (parseUnsignedDecimal l).map .finite

/-- Negation on `JSNumber`. -/
def JSNumber.neg : JSNumber → JSNumber
  | .nan => .nan
  | .posInf => .negInf
  | .negInf => .posInf
  | .finite q => .finite (-q)

/-- ECMAScript string-to-number coercion (`Number(string)`): trim, empty
string is `0`, then a decimal literal with optional sign, `Infinity`, or
an unsigned hex/octal/binary literal; anything else is `NaN`. -/
def strToNumber (s : String) : JSNumber :=
  let t := jsTrimList s.toList
  match t with
  | [] => .finite 0
  | '0' :: 'x' :: r => if r ≠ [] ∧ r.all isHexDigit then .finite (hexDigitsVal r : ℚ) else .nan
  | '0' :: 'X' :: r => if r ≠ [] ∧ r.all isHexDigit then .finite (hexDigitsVal r : ℚ) else .nan
  | '0' :: 'o' :: r => if r ≠ [] ∧ r.all isOctalDigit then .finite (digitsVal 8 r : ℚ) else .nan
  | '0' :: 'O' :: r => if r ≠ [] ∧ r.all isOctalDigit then .finite (digitsVal 8 r : ℚ) else .nan
  | '0' :: 'b' :: r => if r ≠ [] ∧ r.all isBinaryDigit then .finite (digitsVal 2 r : ℚ) else .nan
  | '0' :: 'B' :: r => if r ≠ [] ∧ r.all isBinaryDigit then .finite (digitsVal 2 r : ℚ) else .nan
  | '+' :: r => (parseUnsignedNumeric r).getD .nan
  | '-' :: r => ((parseUnsignedNumeric r).map JSNumber.neg).getD .nan
  | r => (parseUnsignedNumeric r).getD .nan

/-- ECMAScript `ToNumber` on our value model (`Number(v)`). -/
def toNumber : JSValue → JSNumber
  | .undef => .nan
  | .null => .finite 0
  | .bool b => .finite (if b then 1 else 0)
  | .num x => x
  | .str s => strToNumber s

/-- `Math.round`: the closest integer, ties toward positive infinity;
on exact values this is `⌊x + 1/2⌋`, written as an integer floor
division (the denominator is positive) so that it evaluates in the
kernel; `jsMathRound_eq_floor` below states the floor form. -/
def jsMathRound (q : ℚ) : ℤ := (2 * q.num + q.den) / (2 * (q.den : ℤ))

/-! ## UTC calendar arithmetic

`new Date` instants are modelled as milliseconds since the Unix epoch.
The conversions between epoch days and proleptic-Gregorian civil dates
are the standard `days_from_civil` / `civil_from_days` algorithms, which
agree with ECMAScript's `MakeDay` / `YearFromTime` / `MonthFromTime`. -/
def isLeapYear (y : ℤ) : Bool :=
  (y % 4 = 0 ∧ y % 100 ≠ 0) ∨ y % 400 = 0

/-- Number of days in a month (1–12) of a given year. -/
def daysInMonth (y : ℤ) (m : ℕ) : ℕ :=
  if m = 2 then (if isLeapYear y then 29 else 28)
  else if m = 4 ∨ m = 6 ∨ m = 9 ∨ m = 11 then 30
  else 31

/-- Days since 1970-01-01 of the civil date `y-m-d` (proleptic Gregorian). -/
def daysFromCivil (y : ℤ) (m d : ℕ) : ℤ :=
  let y2 : ℤ := y - (if m ≤ 2 then 1 else 0)
  let era : ℤ := Int.fdiv y2 400
  let yoe : ℕ := (y2 - era * 400).toNat
  let mp : ℕ := if 2 < m then m - 3 else m + 9
  let doy : ℕ := (153 * mp + 2) / 5 + d - 1
  let doe : ℕ := yoe * 365 + yoe / 4 - yoe / 100 + doy
  era * 146097 + (doe : ℤ) - 719468

/-- Civil date `(year, month, day)` of a count of days since 1970-01-01. -/
def civilFromDays (z : ℤ) : ℤ × ℕ × ℕ :=
  let z2 : ℤ := z + 719468
  let era : ℤ := Int.fdiv z2 146097
  let doe : ℕ := (z2 - era * 146097).toNat
  let yoe : ℕ := (doe - doe / 1460 + doe / 36524 - doe / 146096) / 365
  let doy : ℕ := doe - (365 * yoe + yoe / 4 - yoe / 100)
  let mp : ℕ := (5 * doy + 2) / 153
  let d : ℕ := doy - (153 * mp + 2) / 5 + 1
  let m : ℕ := if mp < 10 then mp + 3 else mp - 9
  (era * 400 + (yoe : ℤ) + (if m ≤ 2 then 1 else 0), m, d)

/-- The epoch day of an instant (`Day(t)` of ECMAScript, floor division). -/
def jsEpochDay (t : ℤ) : ℤ := Int.fdiv t 86400000

/-- `Date.prototype.getUTCFullYear` on an epoch-milliseconds instant. -/
def getUTCFullYear (t : ℤ) : ℤ := (civilFromDays (jsEpochDay t)).1

/-- `Date.prototype.getUTCMonth` (0-based, as in JS). -/
def getUTCMonth (t : ℤ) : ℕ := (civilFromDays (jsEpochDay t)).2.1 - 1

/-- Epoch milliseconds of a civil date-time given in UTC. -/
def epochMsOf (y : ℤ) (mo d hh mi ss ms : ℕ) : ℤ :=
  daysFromCivil y mo d * 86400000 + (hh : ℤ) * 3600000 + (mi : ℤ) * 60000 +
    (ss : ℤ) * 1000 + (ms : ℤ)

/-! ## The ECMAScript Date Time String Format parser

Model of `new Date(string)` / `Date.parse` on strings in the Date Time
String Format `YYYY[-MM[-DD]][THH:mm[:ss[.fff]][Z|±HH:mm]]` (four-digit
years; expanded `±YYYYYY` years are not modelled).  A date-only string
is interpreted as UTC; a date-time without zone designator is
interpreted in the host time zone, passed as `tz`, the offset from UTC
in minutes; out-of-range calendar components are rejected, as V8 does.
The result is the time value in epoch milliseconds, `none` standing for
an invalid date (`NaN` time value). -/
/-- Read exactly `n` decimal digits from the front. -/
def takeDigits (n : ℕ) (l : List Char) : Option (ℕ × List Char) :=
  let pre := l.take n
  if pre.length = n ∧ pre.all Char.isDigit then
    some (digitsVal 10 pre, l.drop n)
  else none

/-- Parse the optional trailing time-zone designator; returns the zone's
offset from UTC in minutes, or `none` (inside `some`) when absent. -/
def parseZonePart (l : List Char) : Option (Option ℤ) :=
  match l with
  | [] => some none
  | ['Z'] => some (some 0)
  | '+' :: r =>
    match takeDigits 2 r with
    | some (zh, ':' :: r2) =>
      match takeDigits 2 r2 with
      | some (zm, []) =>
        if zh ≤ 23 ∧ zm ≤ 59 then some (some ((zh : ℤ) * 60 + zm)) else none
      | _ => none
    | _ => none
  | '-' :: r =>
    match takeDigits 2 r with
    | some (zh, ':' :: r2) =>
      match takeDigits 2 r2 with
      | some (zm, []) =>
        if zh ≤ 23 ∧ zm ≤ 59 then some (some (-((zh : ℤ) * 60 + zm))) else none
      | _ => none
    | _ => none
  | _ => none

/-- Parse `[:ss[.fff]]` and the zone, given the already-read date and
`HH:mm`.  Fractional seconds: one or more digits, of which the first
three are the milliseconds. -/
def parseSecondsAndZone (tz : ℤ) (y : ℤ) (mo d hh mi : ℕ) (l : List Char) :
    Option ℤ :=
  let finish : ℕ → ℕ → List Char → Option ℤ := fun ss ms rest =>
    match parseZonePart rest with
    | none => none
    | some zone =>
      if mi ≤ 59 ∧ ss ≤ 59 ∧
          (hh ≤ 23 ∨ (hh = 24 ∧ mi = 0 ∧ ss = 0 ∧ ms = 0)) then
        let offset : ℤ := zone.getD tz
        some (epochMsOf y mo d hh mi ss ms - offset * 60000)
      else none
  match l with
  | ':' :: r =>
    match takeDigits 2 r with
    | none => none
    | some (ss, rest) =>
      match rest with
      | '.' :: r2 =>
        let frac := r2.takeWhile Char.isDigit
        let rest2 := r2.dropWhile Char.isDigit
        if frac = [] then none
        else finish ss (digitsVal 10 ((frac ++ ['0', '0', '0']).take 3)) rest2
      | _ => finish ss 0 rest
  | _ => finish 0 0 l

/-- Parse the optional time part (after the date part). -/
def parseTimePart (tz : ℤ) (y : ℤ) (mo d : ℕ) (l : List Char) : Option ℤ :=
  match l with
  | [] => some (epochMsOf y mo d 0 0 0 0)
  | 'T' :: r =>
    match takeDigits 2 r with
    | some (hh, ':' :: r2) =>
      match takeDigits 2 r2 with
      | none => none
      | some (mi, rest) => parseSecondsAndZone tz y mo d hh mi rest
    | _ => none
  | _ => none

/-- Model of `new Date(string)`: parse an ECMAScript Date Time String
Format string to its time value in epoch milliseconds. -/
def parseIsoDate (tz : ℤ) (s : String) : Option ℤ :=
  match takeDigits 4 s.toList with
  | none => none
  | some (y, rest1) =>
    match rest1 with
    | '-' :: r2 =>
      match takeDigits 2 r2 with
      | none => none
      | some (mo, rest2) =>
        if mo < 1 ∨ 12 < mo then none
        else
          match rest2 with
          | '-' :: r3 =>
            match takeDigits 2 r3 with
            | none => none
            | some (d, rest3) =>
              if d < 1 ∨ daysInMonth y mo < d then none
              else parseTimePart tz y mo d rest3
          | r => parseTimePart tz y mo 1 r
    | r => parseTimePart tz y 1 1 r

/-! ## The app's helper functions (`src/app.js`) -/
/-- `const KEY_SEP = "\u001f"` — the composite-key separator. -/
def KEY_SEP : Char := '\x1f'

/-- `cleanString`: non-string values become the empty string, strings
are trimmed. -/
def cleanString (value : JSValue) : String :=
  match value with
  | .str s => jsTrim s
  | _ => ""

/-- `sanitizeMs`: coerce to a number; non-finite gives 0, negative gives
0, otherwise round to the nearest integer. -/
def sanitizeMs (value : JSValue) : ℕ :=
  match toNumber value with
  | .finite q => if q < 0 then 0 else (jsMathRound q).toNat
  | _ => 0

/-- The raw input record shape: the fields of interest, each a loosely
typed JS value (absent fields are `undef`). -/
structure RawRecord where
  master_metadata_track_name : JSValue := .undef
  master_metadata_album_artist_name : JSValue := .undef
  master_metadata_album_album_name : JSValue := .undef
  spotify_track_uri : JSValue := .undef
  episode_name : JSValue := .undef
  spotify_episode_uri : JSValue := .undef
  ts : JSValue := .undef
  ms_played : JSValue := .undef
  skipped : JSValue := .undef
deriving DecidableEq, Repr

/-- `isSongRecord`: the record classifier. -/
def isSongRecord (record : RawRecord) : Bool :=
  let trackName := cleanString record.master_metadata_track_name
  let artistName := cleanString record.master_metadata_album_artist_name
  let episodeName := cleanString record.episode_name
  let episodeUri := cleanString record.spotify_episode_uri
  if trackName = "" ∨ artistName = "" then false
  else if episodeName ≠ "" ∨ episodeUri ≠ "" then false
  else true

/-- `value.replace(" ", "T")`: replace the first space (string patterns
in JS `String.prototype.replace` replace only the first occurrence). -/
def replaceFirstSpace : List Char → List Char
  | [] => []
  | c :: rest => if c = ' ' then 'T' :: rest else c :: replaceFirstSpace rest

/-- `parseTimestamp`: reject non-strings and blank strings; try a direct
parse; if invalid, repair (first space to `T`, append `Z` if the string
does not already end in `Z`) and reparse. -/
def parseTimestamp (tz : ℤ) (value : JSValue) : Option ℤ :=
  match value with
  | .str s =>
    if jsTrim s = "" then none
    else
      match parseIsoDate tz s with
      | some date => some date
      | none =>
        let maybeIso : List Char :=
          if s.toList.contains 'T' then s.toList else replaceFirstSpace s.toList
        let withZone : List Char :=
          if maybeIso.getLast? = some 'Z' then maybeIso else maybeIso ++ ['Z']
        parseIsoDate tz (String.mk withZone)
  | _ => none

/-- `String(n).padStart(2, "0")` for the month component. -/
def padStart2 (s : String) : String :=
  if s.length = 0 then "00" else if s.length = 1 then "0" ++ s else s

/-- `timestampToMonthKey`: the `YYYY-MM` UTC month key of an instant. -/
def timestampToMonthKey (t : ℤ) : String :=
  toString (getUTCFullYear t) ++ "-" ++ padStart2 (toString (getUTCMonth t + 1))

/-! ### Insertion-ordered maps

ECMAScript `Map` iterates its entries in key-insertion order; `set` on
an existing key updates the value in place.  Modelled as association
lists. -/
def mapGet [DecidableEq κ] : List (κ × ν) → κ → Option ν
  | [], _ => none
  | p :: rest, k => if p.1 = k then some p.2 else mapGet rest k

def mapSet [DecidableEq κ] : List (κ × ν) → κ → ν → List (κ × ν)
  | [], k, v => [(k, v)]
  | p :: rest, k, v => if p.1 = k then (k, v) :: rest else p :: mapSet rest k v

def mapKeys (m : List (κ × ν)) : List κ := m.map Prod.fst

def mapValues (m : List (κ × ν)) : List ν := m.map Prod.snd

/-- `incrementCounter`: ignore empty values, otherwise bump the count. -/
def incrementCounter (counter : List (String × ℕ)) (value : String) :
    List (String × ℕ) :=
  if value = "" then counter
  else mapSet counter value ((mapGet counter value).getD 0 + 1)

/-- `mostCommonCounterKey`: scan the counter in iteration (= insertion)
order keeping the first key whose count strictly exceeds the best so
far (initially −1). -/
def mostCommonCounterKey (counter : List (String × ℕ)) : String :=
  (counter.foldl
    (fun best kv => if (kv.2 : ℤ) > best.2 then (kv.1, (kv.2 : ℤ)) else best)
    ("", -1)).1

/-- `makeSongKey`: the composite `(song, artist)` identity string. -/
def makeSongKey (song artist : String) : String :=
  song ++ String.mk [KEY_SEP] ++ artist

/-- `songKey.indexOf(KEY_SEP)` based split: the characters before the
first separator and the characters after it (whole string and empty
artist when no separator occurs). -/
def splitAtFirst (c : Char) : List Char → Option (List Char × List Char)
  | [] => none
  | x :: r =>
    if x = c then some ([], r)
    else (splitAtFirst c r).map (fun p => (x :: p.1, p.2))

/-- `splitSongKey`. -/
def splitSongKey (songKey : String) : String × String :=
  match splitAtFirst KEY_SEP songKey.toList with
  | none => (songKey, "")
  | some (a, b) => (String.mk a, String.mk b)

/-! ### Comparators and sorting -/
/-- Model of `a.localeCompare(b)` (and of JS string `<`/`>`):
lexicographic comparison by code point. -/
def jsStrCmp (a b : String) : ℤ :=
  if a < b then -1 else if b < a then 1 else 0

/-- JS `x || y` on comparator results: `y` when `x` is `0`. -/
def orInt (x y : ℤ) : ℤ := if x = 0 then y else x

/-- A row of the final per-song table. -/
structure SongRow where
  song : String
  artist : String
  album : String
  uri : String
  playCount : ℕ
  skipCount : ℕ
  skipRate : ℚ
  totalMs : ℕ
  totalMinutes : ℚ
  totalHours : ℚ
deriving DecidableEq, Repr

/-- `compareSongsByPlayCount`. -/
def compareSongsByPlayCount (a b : SongRow) : ℤ :=
  orInt ((b.playCount : ℤ) - (a.playCount : ℤ))
    (orInt ((b.totalMs : ℤ) - (a.totalMs : ℤ))
      (orInt ((b.skipCount : ℤ) - (a.skipCount : ℤ))
        (orInt (jsStrCmp a.artist b.artist) (jsStrCmp a.song b.song))))

/-- `compareSongsByListenTime`. -/
def compareSongsByListenTime (a b : SongRow) : ℤ :=
  orInt ((b.totalMs : ℤ) - (a.totalMs : ℤ))
    (orInt ((b.playCount : ℤ) - (a.playCount : ℤ))
      (orInt (jsStrCmp a.artist b.artist) (jsStrCmp a.song b.song)))

/-- `compareSongsBySkipCount`. -/
def compareSongsBySkipCount (a b : SongRow) : ℤ :=
  orInt ((b.skipCount : ℤ) - (a.skipCount : ℤ))
    (orInt ((b.playCount : ℤ) - (a.playCount : ℤ))
      (orInt (jsStrCmp a.artist b.artist) (jsStrCmp a.song b.song)))

/-- Per-month per-song accumulator entry. -/
structure MonthSongEntry where
  playCount : ℕ
  totalMs : ℕ
deriving DecidableEq, Repr

/-- `compareMonthlySongRank` on `(songKey, stats)` map entries. -/
def compareMonthlySongRank (a b : String × MonthSongEntry) : ℤ :=
  let sa := splitSongKey a.1
  let sb := splitSongKey b.1
  orInt ((b.2.playCount : ℤ) - (a.2.playCount : ℤ))
    (orInt ((b.2.totalMs : ℤ) - (a.2.totalMs : ℤ))
      (orInt (jsStrCmp sa.2 sb.2) (jsStrCmp sa.1 sb.1)))

/-- A row of the artist top list. -/
structure ArtistRow where
  artist : String
  playCount : ℕ
  skipCount : ℕ
  totalMs : ℕ
  totalMinutes : ℚ
deriving DecidableEq, Repr

/-- `compareArtistsByTime`. -/
def compareArtistsByTime (a b : ArtistRow) : ℤ :=
  orInt ((b.totalMs : ℤ) - (a.totalMs : ℤ))
    (orInt ((b.playCount : ℤ) - (a.playCount : ℤ))
      (jsStrCmp a.artist b.artist))

/-- Model of `Array.prototype.sort(cmp)`: ECMAScript requires the sort
to be stable and, for a consistent comparator, to produce a sorted
permutation; insertion sort on the relation `cmp a b ≤ 0` is exactly
that. -/
def jsSort (cmp : α → α → ℤ) (l : List α) : List α :=
  l.insertionSort (fun a b => cmp a b ≤ 0)

/-- `pickPeak`: linear scan keeping the current best; a later row wins
only with a strictly larger value, or an equal value and a strictly
larger tie-break string. -/
def pickPeak (rows : List α) (val : α → ℕ) (tie : α → String) : Option α :=
  match rows with
  | [] => none
  | r :: rest =>
    some (rest.foldl
      (fun best cur =>
        if val best < val cur ∨ (val cur = val best ∧ tie best < tie cur)
        then cur else best) r)

/-- `MONTH_NAMES`. -/
def MONTH_NAMES : List String :=
  ["Jan", "Feb", "Mar", "Apr", "May", "Jun",
   "Jul", "Aug", "Sep", "Oct", "Nov", "Dec"]

/-- Rendering of a finite JS number into a template string; only the
integral case (the one reachable from month keys) is modelled exactly,
non-integral values get a fixed placeholder. -/
def jsNumToString (q : ℚ) : String :=
  if q.den = 1 then toString q.num else "?"

/-- `MONTH_NAMES[month - 1]` for a (finite) JS number index: defined
only at integral indices 0–11, `undefined` rendering otherwise. -/
def monthNameAt (idx : ℚ) : String :=
  if idx.den = 1 ∧ 0 ≤ idx.num then
    (MONTH_NAMES.getD idx.num.toNat "undefined")
  else "undefined"

/-- `formatMonthLabel`. -/
def formatMonthLabel (monthKey : String) : String :=
  match monthKey.splitOn "-" with
  | [p0, p1] =>
    match strToNumber p0, strToNumber p1 with
    | .finite year, .finite month =>
      if month < 1 ∨ 12 < month then monthKey
      else monthNameAt (month - 1) ++ " " ++ jsNumToString year
    | _, _ => monthKey
  | _ => monthKey

/-! ## The aggregation pass (`buildReport`) -/
/-- Per-song accumulator (`songMap` values). -/
structure SongEntry where
  song : String
  artist : String
  playCount : ℕ
  skipCount : ℕ
  totalMs : ℕ
  albumCounter : List (String × ℕ)
  uriCounter : List (String × ℕ)
deriving DecidableEq, Repr

/-- Per-artist accumulator (`artistMap` values). -/
structure ArtistEntry where
  artist : String
  playCount : ℕ
  skipCount : ℕ
  totalMs : ℕ
deriving DecidableEq, Repr

/-- The mutable state of the single aggregation pass. -/
structure AccState where
  songMap : List (String × SongEntry)
  artistMap : List (String × ArtistEntry)
  monthlySongMap : List (String × List (String × MonthSongEntry))
  monthlyMs : List (String × ℕ)
  yearlyMs : List (ℤ × ℕ)
  ignoredNonSong : ℕ
  ignoredBadTimestamp : ℕ
  songRecordsUsed : ℕ
deriving DecidableEq, Repr

def initState : AccState :=
  { songMap := [], artistMap := [], monthlySongMap := [], monthlyMs := [],
    yearlyMs := [], ignoredNonSong := 0, ignoredBadTimestamp := 0,
    songRecordsUsed := 0 }

/-- The body of `buildReport`'s `for (const record of records)` loop. -/
def applyRecord (tz : ℤ) (st : AccState) (record : RawRecord) : AccState :=
  if ¬ isSongRecord record then
    { st with ignoredNonSong := st.ignoredNonSong + 1 }
  else
    match parseTimestamp tz record.ts with
    | none => { st with ignoredBadTimestamp := st.ignoredBadTimestamp + 1 }
    | some timestamp =>
      let song := cleanString record.master_metadata_track_name
      let artist := cleanString record.master_metadata_album_artist_name
      let album := cleanString record.master_metadata_album_album_name
      let uri := cleanString record.spotify_track_uri
      let msPlayed := sanitizeMs record.ms_played
      let skipped := record.skipped.truthy
      let songKey := makeSongKey song artist
      let monthKey := timestampToMonthKey timestamp
      let yearKey := getUTCFullYear timestamp
      let songEntry := (mapGet st.songMap songKey).getD
        { song := song, artist := artist, playCount := 0, skipCount := 0,
          totalMs := 0, albumCounter := [], uriCounter := [] }
      let songEntry :=
        { songEntry with
          playCount := songEntry.playCount + 1,
          skipCount := songEntry.skipCount + (if skipped then 1 else 0),
          totalMs := songEntry.totalMs + msPlayed,
          albumCounter := incrementCounter songEntry.albumCounter album,
          uriCounter := incrementCounter songEntry.uriCounter uri }
      let artistEntry := (mapGet st.artistMap artist).getD
        { artist := artist, playCount := 0, skipCount := 0, totalMs := 0 }
      let artistEntry :=
        { artistEntry with
          playCount := artistEntry.playCount + 1,
          skipCount := artistEntry.skipCount + (if skipped then 1 else 0),
          totalMs := artistEntry.totalMs + msPlayed }
      let monthSongs := (mapGet st.monthlySongMap monthKey).getD []
      let monthSongEntry := (mapGet monthSongs songKey).getD ⟨0, 0⟩
      let monthSongEntry : MonthSongEntry :=
        ⟨monthSongEntry.playCount + 1, monthSongEntry.totalMs + msPlayed⟩
      { st with
        songMap := mapSet st.songMap songKey songEntry,
        artistMap := mapSet st.artistMap artist artistEntry,
        monthlySongMap :=
          mapSet st.monthlySongMap monthKey (mapSet monthSongs songKey monthSongEntry),
        monthlyMs :=
          mapSet st.monthlyMs monthKey ((mapGet st.monthlyMs monthKey).getD 0 + msPlayed),
        yearlyMs :=
          mapSet st.yearlyMs yearKey ((mapGet st.yearlyMs yearKey).getD 0 + msPlayed),
        songRecordsUsed := st.songRecordsUsed + 1 }

/-- The whole aggregation loop. -/
def runPass (tz : ℤ) : AccState → List RawRecord → AccState
  | st, [] => st
  | st, record :: rest => runPass tz (applyRecord tz st record) rest

/-- The per-song row derivation inside `buildReport`. -/
def songRowOf (entry : SongEntry) : SongRow :=
  let totalMinutes : ℚ := (entry.totalMs : ℚ) / 60000
  { song := entry.song, artist := entry.artist,
    album := mostCommonCounterKey entry.albumCounter,
    uri := mostCommonCounterKey entry.uriCounter,
    playCount := entry.playCount, skipCount := entry.skipCount,
    skipRate :=
      if entry.playCount ≠ 0 then (entry.skipCount : ℚ) / (entry.playCount : ℚ) else 0,
    totalMs := entry.totalMs, totalMinutes := totalMinutes,
    totalHours := totalMinutes / 60 }

/-- The per-artist row derivation inside `buildReport`. -/
def artistRowOf (row : ArtistEntry) : ArtistRow :=
  { artist := row.artist, playCount := row.playCount, skipCount := row.skipCount,
    totalMs := row.totalMs, totalMinutes := (row.totalMs : ℚ) / 60000 }

/-- A row of the monthly top-3 table. -/
structure MonthRankRow where
  month : String
  monthLabel : String
  rank : ℕ
  song : String
  artist : String
  playCount : ℕ
  minutesListened : ℚ
deriving DecidableEq, Repr

/-- A row of the monthly time series. -/
structure MonthlyRow where
  month : String
  monthLabel : String
  totalMs : ℕ
  minutes : ℚ
  hours : ℚ
deriving DecidableEq, Repr

/-- A row of the yearly time series. -/
structure YearlyRow where
  year : ℤ
  totalMs : ℕ
  minutes : ℚ
  hours : ℚ
deriving DecidableEq, Repr

/-- The peak-month value in the report. -/
structure PeakMonthInfo where
  month : String
  monthLabel : String
  totalMs : ℕ
  minutes : ℚ
deriving DecidableEq, Repr

/-- The peak-year value in the report. -/
structure PeakYearInfo where
  year : ℤ
  totalMs : ℕ
  minutes : ℚ
deriving DecidableEq, Repr

/-- The final report value (the upstream `parsedInputMeta` passthrough,
which the core does not inspect, is omitted). -/
structure Report where
  totalRecordsRead : ℕ
  songRecordsUsed : ℕ
  ignoredNonSong : ℕ
  ignoredBadTimestamp : ℕ
  uniqueSongs : ℕ
  totalSongMs : ℕ
  totalMinutes : ℚ
  totalHours : ℚ
  peakMonth : Option PeakMonthInfo
  peakYear : Option PeakYearInfo
  dataRange : String
  songRows : List SongRow
  top10ByPlayCount : List SongRow
  top10ByTime : List SongRow
  top10Skipped : List SongRow
  top3PerMonthRows : List MonthRankRow
  monthlyMinutesRows : List MonthlyRow
  yearlyMinutesRows : List YearlyRow
  topArtistsByMinutes : List ArtistRow
deriving DecidableEq, Repr

/-- `buildReport`. -/
def buildReport (tz : ℤ) (records : List RawRecord) : Report :=
  let st := runPass tz initState records
  let songRows := jsSort compareSongsByPlayCount ((mapValues st.songMap).map songRowOf)
  let top10ByPlayCount := (jsSort compareSongsByPlayCount songRows).take 10
  let top10ByTime := (jsSort compareSongsByListenTime songRows).take 10
  let top10Skipped :=
    (jsSort compareSongsBySkipCount (songRows.filter (fun row => 0 < row.skipCount))).take 10
  let sortedMonths := jsSort jsStrCmp (mapKeys st.monthlySongMap)
  let top3PerMonthRows := sortedMonths.flatMap (fun month =>
    match mapGet st.monthlySongMap month with
    | none => []
    | some monthSongs =>
      ((jsSort compareMonthlySongRank monthSongs).take 3).enum.map
        (fun p =>
          { month := month, monthLabel := formatMonthLabel month,
            rank := p.1 + 1, song := (splitSongKey p.2.1).1,
            artist := (splitSongKey p.2.1).2,
            playCount := p.2.2.playCount,
            minutesListened := (p.2.2.totalMs : ℚ) / 60000 }))
  let monthlyMinutesRows := (jsSort (fun a b => jsStrCmp a.1 b.1) st.monthlyMs).map
    (fun p =>
      { month := p.1, monthLabel := formatMonthLabel p.1, totalMs := p.2,
        minutes := (p.2 : ℚ) / 60000, hours := (p.2 : ℚ) / 3600000 })
  let yearlyMinutesRows := (jsSort (fun a b => a.1 - b.1) st.yearlyMs).map
    (fun p =>
      { year := p.1, totalMs := p.2,
        minutes := (p.2 : ℚ) / 60000, hours := (p.2 : ℚ) / 3600000 })
  let peakMonth :=
    (pickPeak monthlyMinutesRows (fun row => row.totalMs) (fun row => row.month)).map
      (fun best =>
        { month := best.month, monthLabel := best.monthLabel,
          totalMs := best.totalMs, minutes := best.minutes })
  let peakYear :=
    (pickPeak yearlyMinutesRows (fun row => row.totalMs) (fun row => toString row.year)).map
      (fun best => { year := best.year, totalMs := best.totalMs, minutes := best.minutes })
  let topArtistsByMinutes :=
    (jsSort compareArtistsByTime ((mapValues st.artistMap).map artistRowOf)).take 10
  let totalSongMs := songRows.foldl (fun sum row => sum + row.totalMs) 0
  let dataRange :=
    match monthlyMinutesRows.head?, monthlyMinutesRows.getLast? with
    | some firstRow, some lastRow => firstRow.monthLabel ++ " - " ++ lastRow.monthLabel
    | _, _ => "N/A"
  { totalRecordsRead := records.length,
    songRecordsUsed := st.songRecordsUsed,
    ignoredNonSong := st.ignoredNonSong,
    ignoredBadTimestamp := st.ignoredBadTimestamp,
    uniqueSongs := songRows.length,
    totalSongMs := totalSongMs,
    totalMinutes := (totalSongMs : ℚ) / 60000,
    totalHours := (totalSongMs : ℚ) / 3600000,
    peakMonth := peakMonth, peakYear := peakYear, dataRange := dataRange,
    songRows := songRows, top10ByPlayCount := top10ByPlayCount,
    top10ByTime := top10ByTime, top10Skipped := top10Skipped,
    top3PerMonthRows := top3PerMonthRows,
    monthlyMinutesRows := monthlyMinutesRows,
    yearlyMinutesRows := yearlyMinutesRows,
    topArtistsByMinutes := topArtistsByMinutes }

/-- The distinguished fatal message of `handleProcess` when no usable
records survive (`src/app.js` lines 213–216). -/
def noUsableRecordsMsg : String :=
  "No song records were found after filtering out non-song entries."

/-- The report-production step of `handleProcess`: build the report and
fail with the distinguished message when no song records were used.
(The earlier file-decoding validations of `handleProcess` belong to the
out-of-scope decoding collaborator.) -/
def processRecords (tz : ℤ) (records : List RawRecord) : Except String Report :=
  let report := buildReport tz records
  if report.songRecordsUsed = 0 then .error noUsableRecordsMsg
  else .ok report

/-! ## C7: the peak selector -/
/-- The (value, key-string) lexicographic order the peak selector
maximises. -/
def peakLE (val : α → ℕ) (tie : α → String) (x y : α) : Prop :=
  val x < val y ∨ (val x = val y ∧ tie x ≤ tie y)

/-! ## C8: the album/URI frequency counter -/
/-- The counter built by feeding a list of observed values (in event
order) through `incrementCounter`, starting from the fresh counter a
`songMap` entry is created with. -/
def buildCounter (values : List String) : List (String × ℕ) :=
  values.foldl incrementCounter []

/-! ## C2, C3: provenance counters and the fatal condition -/
/-- A record that survives classification and timestamp normalization. -/
def accepted (tz : ℤ) (record : RawRecord) : Bool :=
  isSongRecord record && (parseTimestamp tz record.ts).isSome

/-- A concrete song record used by witnesses. -/
def demoRecord : RawRecord :=
  { master_metadata_track_name := JSValue.str "Song X",
    master_metadata_album_artist_name := JSValue.str "Artist A",
    master_metadata_album_album_name := JSValue.str "Album",
    spotify_track_uri := JSValue.str "spotify:track:1",
    ts := JSValue.str "2023-05-01 10:00:00",
    ms_played := JSValue.num (.finite 1000),
    skipped := JSValue.bool false }

/-- The claim's comparator chain for the song table, stated in the
spec's words: play count descending, then total time descending, then
skip count descending, then artist ascending, then song ascending. -/
def specSongOrderByPlayCount (a b : SongRow) : Prop :=
  b.playCount < a.playCount ∨ (b.playCount = a.playCount ∧
    (b.totalMs < a.totalMs ∨ (b.totalMs = a.totalMs ∧
      (b.skipCount < a.skipCount ∨ (b.skipCount = a.skipCount ∧
        (a.artist < b.artist ∨ (a.artist = b.artist ∧ a.song ≤ b.song)))))))

/-- The lexicographic key realising `compareSongsByPlayCount`. -/
def songKeyByPlayCount (a : SongRow) :
    ℤ ×ₗ (ℤ ×ₗ (ℤ ×ₗ (String ×ₗ String))) :=
  toLex (-(a.playCount : ℤ),
    toLex (-(a.totalMs : ℤ),
      toLex (-(a.skipCount : ℤ), toLex (a.artist, a.song))))

/-! ### Per-record attributes and the multiset-level accumulation formulas -/
/-- The composite song key an accepted record accumulates under. -/
def keyOf (record : RawRecord) : String :=
  makeSongKey (cleanString record.master_metadata_track_name)
    (cleanString record.master_metadata_album_artist_name)

/-- The artist key of a record. -/
def artistOf (record : RawRecord) : String :=
  cleanString record.master_metadata_album_artist_name

/-- The UTC month key of a record (junk for unparsable timestamps,
which are filtered out before use). -/
def monthOf (tz : ℤ) (record : RawRecord) : String :=
  match parseTimestamp tz record.ts with
  | some t => timestampToMonthKey t
  | none => ""

/-- The UTC year key of a record. -/
def yearOf (tz : ℤ) (record : RawRecord) : ℤ :=
  match parseTimestamp tz record.ts with
  | some t => getUTCFullYear t
  | none => 0

def msOf (record : RawRecord) : ℕ := sanitizeMs record.ms_played

def skipOf (record : RawRecord) : Bool := record.skipped.truthy

/-- The order-insensitive content of a `SongEntry` (everything except
the insertion-ordered album/URI counters). -/
structure SongCore where
  song : String
  artist : String
  playCount : ℕ
  skipCount : ℕ
  totalMs : ℕ
deriving DecidableEq, Repr

def coreOfEntry (e : SongEntry) : SongCore :=
  ⟨e.song, e.artist, e.playCount, e.skipCount, e.totalMs⟩

/-- Accumulating a batch of records into a song core. -/
def bumpCore (c : SongCore) (rs : List RawRecord) : SongCore :=
  { c with
    playCount := c.playCount + rs.length,
    skipCount := c.skipCount + rs.countP skipOf,
    totalMs := c.totalMs + (rs.map msOf).sum }

/-- The song core a fresh entry starts from, seen through the key. -/
def newCore (k : String) : SongCore :=
  ⟨(splitSongKey k).1, (splitSongKey k).2, 0, 0, 0⟩

/-- The song core a fresh entry starts from, as built from the record. -/
def newCoreOf (record : RawRecord) : SongCore :=
  ⟨cleanString record.master_metadata_track_name,
   cleanString record.master_metadata_album_artist_name, 0, 0, 0⟩

/-- The records that accumulate into song key `k`. -/
def songMatch (tz : ℤ) (k : String) (records : List RawRecord) :
    List RawRecord :=
  records.filter (fun r => accepted tz r && decide (keyOf r = k))

/-- Accumulating a batch of records into an artist entry. -/
def bumpArtist (e : ArtistEntry) (rs : List RawRecord) : ArtistEntry :=
  { e with
    playCount := e.playCount + rs.length,
    skipCount := e.skipCount + rs.countP skipOf,
    totalMs := e.totalMs + (rs.map msOf).sum }

/-- The records that accumulate into artist `a`. -/
def artistMatch (tz : ℤ) (a : String) (records : List RawRecord) :
    List RawRecord :=
  records.filter (fun r => accepted tz r && decide (artistOf r = a))

/-- The records that accumulate into month `mk`. -/
def monthMatch (tz : ℤ) (mk : String) (records : List RawRecord) :
    List RawRecord :=
  records.filter (fun r => accepted tz r && decide (monthOf tz r = mk))

/-- The records that accumulate into year `y`. -/
def yearMatch (tz : ℤ) (y : ℤ) (records : List RawRecord) :
    List RawRecord :=
  records.filter (fun r => accepted tz r && decide (yearOf tz r = y))

/-- The records that accumulate into `(month, songKey)`. -/
def monthSongMatch (tz : ℤ) (mk k : String) (records : List RawRecord) :
    List RawRecord :=
  records.filter
    (fun r => accepted tz r && decide (monthOf tz r = mk) && decide (keyOf r = k))

/-- Accumulating a batch of records into a monthly per-song entry. -/
def bumpMonthSong (e : MonthSongEntry) (rs : List RawRecord) : MonthSongEntry :=
  ⟨e.playCount + rs.length, e.totalMs + (rs.map msOf).sum⟩

/-- The nested lookup into the monthly per-song table. -/
def monthSongLookup (st : AccState) (mk k : String) : Option MonthSongEntry :=
  (mapGet st.monthlySongMap mk).bind (fun ms => mapGet ms k)

/-- Total sanitized milliseconds of a batch of records. -/
def msSum (rs : List RawRecord) : ℕ := (rs.map msOf).sum

/-- A song key that is faithfully split back into its two components. -/
def keyRoundtrip (k : String) : Prop :=
  makeSongKey (splitSongKey k).1 (splitSongKey k).2 = k

/-! ### Stripped rows and core comparators -/
/-- A song-table row without the order-sensitive representative
album/URI fields. -/
structure SongRowCore where
  song : String
  artist : String
  playCount : ℕ
  skipCount : ℕ
  skipRate : ℚ
  totalMs : ℕ
  totalMinutes : ℚ
  totalHours : ℚ
deriving DecidableEq, Repr

def stripRow (r : SongRow) : SongRowCore :=
  ⟨r.song, r.artist, r.playCount, r.skipCount, r.skipRate, r.totalMs,
   r.totalMinutes, r.totalHours⟩

/-- The row derived from a song core, exactly as `songRowOf` derives it
from the entry. -/
def coreRowOf (c : SongCore) : SongRowCore :=
  let totalMinutes : ℚ := (c.totalMs : ℚ) / 60000
  ⟨c.song, c.artist, c.playCount, c.skipCount,
   (if c.playCount ≠ 0 then (c.skipCount : ℚ) / (c.playCount : ℚ) else 0),
   c.totalMs, totalMinutes, totalMinutes / 60⟩

def compareCoreByPlayCount (a b : SongRowCore) : ℤ :=
  orInt ((b.playCount : ℤ) - (a.playCount : ℤ))
    (orInt ((b.totalMs : ℤ) - (a.totalMs : ℤ))
      (orInt ((b.skipCount : ℤ) - (a.skipCount : ℤ))
        (orInt (jsStrCmp a.artist b.artist) (jsStrCmp a.song b.song))))

def compareCoreByListenTime (a b : SongRowCore) : ℤ :=
  orInt ((b.totalMs : ℤ) - (a.totalMs : ℤ))
    (orInt ((b.playCount : ℤ) - (a.playCount : ℤ))
      (orInt (jsStrCmp a.artist b.artist) (jsStrCmp a.song b.song)))

def compareCoreBySkipCount (a b : SongRowCore) : ℤ :=
  orInt ((b.skipCount : ℤ) - (a.skipCount : ℤ))
    (orInt ((b.playCount : ℤ) - (a.playCount : ℤ))
      (orInt (jsStrCmp a.artist b.artist) (jsStrCmp a.song b.song)))

def coreKeyPC (a : SongRowCore) : ℤ ×ₗ (ℤ ×ₗ (ℤ ×ₗ (String ×ₗ String))) :=
  toLex (-(a.playCount : ℤ),
    toLex (-(a.totalMs : ℤ),
      toLex (-(a.skipCount : ℤ), toLex (a.artist, a.song))))

def coreKeyTime (a : SongRowCore) : ℤ ×ₗ (ℤ ×ₗ (String ×ₗ String)) :=
  toLex (-(a.totalMs : ℤ),
    toLex (-(a.playCount : ℤ), toLex (a.artist, a.song)))

def coreKeySkip (a : SongRowCore) : ℤ ×ₗ (ℤ ×ₗ (String ×ₗ String)) :=
  toLex (-(a.skipCount : ℤ),
    toLex (-(a.playCount : ℤ), toLex (a.artist, a.song)))

def monthlyRankKey (p : String × MonthSongEntry) :
    ℤ ×ₗ (ℤ ×ₗ (String ×ₗ String)) :=
  toLex (-(p.2.playCount : ℤ),
    toLex (-(p.2.totalMs : ℤ),
      toLex ((splitSongKey p.1).2, (splitSongKey p.1).1)))

def artistRowKey (a : ArtistRow) : ℤ ×ₗ (ℤ ×ₗ String) :=
  toLex (-(a.totalMs : ℤ), toLex (-(a.playCount : ℤ), a.artist))

/-! ## C9: order (in)dependence of the report -/
/-- The song core stored at key `k` (the fresh core when absent). -/
def coreAt (st : AccState) (k : String) : SongCore :=
  ((mapGet st.songMap k).map coreOfEntry).getD (newCore k)

/-- The artist entry stored at `a` (the zero entry when absent). -/
def artistAt (st : AccState) (a : String) : ArtistEntry :=
  (mapGet st.artistMap a).getD ⟨a, 0, 0, 0⟩

/-- The monthly total stored at `mk`. -/
def monthMsAt (st : AccState) (mk : String) : ℕ :=
  (mapGet st.monthlyMs mk).getD 0

/-- The yearly total stored at `y`. -/
def yearMsAt (st : AccState) (y : ℤ) : ℕ :=
  (mapGet st.yearlyMs y).getD 0

/-- The monthly per-song entry stored at `(mk, k)`. -/
def monthSongAt (st : AccState) (mk k : String) : MonthSongEntry :=
  (monthSongLookup st mk k).getD ⟨0, 0⟩

/-- A second separator-free song record for the permutation witness. -/
def demoRecordB : RawRecord :=
  { master_metadata_track_name := JSValue.str "Song Y",
    master_metadata_album_artist_name := JSValue.str "Artist B",
    master_metadata_album_album_name := JSValue.str "Album",
    spotify_track_uri := JSValue.str "spotify:track:2",
    ts := JSValue.str "2023-06-02T12:00:00Z",
    ms_played := JSValue.num (.finite 2000),
    skipped := JSValue.bool true }

/-- A record whose cleaned track name contains the U+001F key separator. -/
def sepRecordA : RawRecord :=
  { master_metadata_track_name := JSValue.str "A\x1fB",
    master_metadata_album_artist_name := JSValue.str "C",
    ts := JSValue.str "2023-05-01T10:00:00Z" }

/-- A record whose artist carries the tail of `sepRecordA`'s track name,
so both records collide on the composite key `"A", U+001F, "B", U+001F, "C"`. -/
def sepRecordB : RawRecord :=
  { master_metadata_track_name := JSValue.str "A",
    master_metadata_album_artist_name := JSValue.str "B\x1fC",
    ts := JSValue.str "2023-05-01T10:00:00Z" }

/-- `jsMathRound` is the floor of `q + 1/2`. -/
theorem jsMathRound_eq_floor (q : ℚ) : jsMathRound q = ⌊q + 1 / 2⌋ := by
  have key : q + 1 / 2 =
      ((2 * q.num + (q.den : ℤ) : ℤ) : ℚ) / ((2 * q.den : ℕ) : ℚ) := by
    conv_lhs => rw [← Rat.num_div_den q]
    have hd : ((q.den : ℚ)) ≠ 0 := by positivity
    push_cast
    field_simp
    ring
  rw [key, Rat.floor_intCast_div_natCast, jsMathRound]
  push_cast
  rfl

/-! ## Basic lemmas about the insertion-ordered map model -/
section MapLemmas

variable {κ : Type u} {ν : Type v} [DecidableEq κ]

theorem mapGet_mapSet_self (m : List (κ × ν)) (k : κ) (v : ν) :
    mapGet (mapSet m k v) k = some v := by
  induction m with
  | nil => simp [mapGet, mapSet]
  | cons p rest ih =>
    by_cases h : p.1 = k
    · simp [mapGet, mapSet, h]
    · simp [mapGet, mapSet, h, ih]

theorem mapGet_mapSet_ne (m : List (κ × ν)) (k j : κ) (v : ν) (h : j ≠ k) :
    mapGet (mapSet m k v) j = mapGet m j := by
  induction m with
  | nil => simp [mapGet, mapSet, Ne.symm h]
  | cons p rest ih =>
    by_cases hp : p.1 = k
    · simp [mapGet, mapSet, hp, Ne.symm h]
    · rw [mapSet, if_neg hp]
      simp only [mapGet]
      rw [ih]

theorem mapKeys_mapSet (m : List (κ × ν)) (k : κ) (v : ν) :
    mapKeys (mapSet m k v) =
      if k ∈ mapKeys m then mapKeys m else mapKeys m ++ [k] := by
  induction m with
  | nil => simp [mapKeys, mapSet]
  | cons p rest ih =>
    by_cases h : p.1 = k
    · simp [mapKeys, mapSet, h]
    · simp only [mapSet, if_neg h, mapKeys, List.map_cons]
      have ih2 : List.map Prod.fst (mapSet rest k v) =
          if k ∈ List.map Prod.fst rest then List.map Prod.fst rest
          else List.map Prod.fst rest ++ [k] := ih
      rw [ih2]
      by_cases hm : k ∈ List.map Prod.fst rest
      · rw [if_pos hm, if_pos (List.mem_cons.mpr (Or.inr hm))]
      · rw [if_neg hm,
          if_neg (fun hc => (List.mem_cons.mp hc).elim (fun he => h he.symm) hm),
          List.cons_append]

theorem mapGet_eq_none_iff (m : List (κ × ν)) (k : κ) :
    mapGet m k = none ↔ k ∉ mapKeys m := by
  induction m with
  | nil => simp [mapGet, mapKeys]
  | cons p rest ih =>
    simp only [mapGet, mapKeys, List.map_cons, List.mem_cons]
    by_cases h : p.1 = k
    · simp [h]
    · rw [if_neg h]
      have ih2 : mapGet rest k = none ↔ k ∉ List.map Prod.fst rest := ih
      rw [ih2]
      constructor
      · intro hn hc
        rcases hc with hc | hc
        · exact h hc.symm
        · exact hn hc
      · exact fun hn hc => hn (Or.inr hc)

theorem mem_of_mapGet_eq_some {m : List (κ × ν)} {k : κ} {v : ν}
    (h : mapGet m k = some v) : (k, v) ∈ m := by
  induction m with
  | nil => simp [mapGet] at h
  | cons p rest ih =>
    by_cases hp : p.1 = k
    · rw [mapGet, if_pos hp] at h
      have h2 := Option.some.inj h
      have hpe : p = (k, v) := Prod.ext hp h2
      exact hpe ▸ List.mem_cons_self p rest
    · rw [mapGet, if_neg hp] at h
      exact List.mem_cons_of_mem _ (ih h)

theorem mapGet_eq_some_of_mem {m : List (κ × ν)} {k : κ} {v : ν}
    (hnd : (mapKeys m).Nodup) (h : (k, v) ∈ m) : mapGet m k = some v := by
  induction m with
  | nil => simp at h
  | cons p rest ih =>
    rw [mapKeys, List.map_cons, List.nodup_cons] at hnd
    rcases List.mem_cons.mp h with h | h
    · subst h
      simp [mapGet]
    · have hne : p.1 ≠ k := by
        intro he
        exact hnd.1 (he ▸ (List.mem_map.mpr ⟨_, h, rfl⟩))
      rw [mapGet, if_neg hne]
      exact ih hnd.2 h

theorem nodup_mapKeys_mapSet (m : List (κ × ν)) (k : κ) (v : ν)
    (h : (mapKeys m).Nodup) : (mapKeys (mapSet m k v)).Nodup := by
  rw [mapKeys_mapSet]
  split_ifs with hm
  · exact h
  · simpa [List.nodup_append] using ⟨h, hm⟩

theorem mem_mapSet_iff (k : κ) (v : ν) (p : κ × ν) :
    ∀ (m : List (κ × ν)), (mapKeys m).Nodup →
      (p ∈ mapSet m k v ↔ p = (k, v) ∨ (p ∈ m ∧ p.1 ≠ k))
  | [], _ => by simp [mapSet]
  | q :: rest, hnd => by
    have hnd2 : (mapKeys rest).Nodup := by
      rw [mapKeys, List.map_cons, List.nodup_cons] at hnd
      exact hnd.2
    have hq1 : q.1 ∉ mapKeys rest := by
      rw [mapKeys, List.map_cons, List.nodup_cons] at hnd
      exact hnd.1
    by_cases hq : q.1 = k
    · rw [mapSet, if_pos hq, List.mem_cons, List.mem_cons]
      constructor
      · rintro (h | h)
        · exact Or.inl h
        · have hpk : p.1 ≠ k := by
            intro he
            apply hq1
            rw [mapKeys]
            have : p.1 ∈ List.map Prod.fst rest := List.mem_map.mpr ⟨p, h, rfl⟩
            rw [he, ← hq] at this
            exact this
          exact Or.inr ⟨Or.inr h, hpk⟩
      · rintro (h | ⟨h | h, hne⟩)
        · exact Or.inl h
        · have : p.1 = k := by rw [h]; exact hq
          exact absurd this hne
        · exact Or.inr h
    · rw [mapSet, if_neg hq, List.mem_cons, List.mem_cons,
        mem_mapSet_iff k v p rest hnd2]
      constructor
      · rintro (h | h)
        · refine Or.inr ⟨Or.inl h, ?_⟩
          rw [h]
          exact hq
        · rcases h with h | ⟨h, hne⟩
          · exact Or.inl h
          · exact Or.inr ⟨Or.inr h, hne⟩
      · rintro (h | ⟨h | h, hne⟩)
        · exact Or.inr (Or.inl h)
        · exact Or.inl h
        · exact Or.inr (Or.inr ⟨h, hne⟩)

end MapLemmas

/-! ## C4: the record classifier -/
theorem cleanString_eq_empty_iff (v : JSValue) :
    cleanString v = "" ↔ ∀ s, v = JSValue.str s → jsTrim s = "" := by
  cases v <;> simp [cleanString]

theorem cleanString_ne_empty_iff (v : JSValue) :
    cleanString v ≠ "" ↔ ∃ s, v = JSValue.str s ∧ jsTrim s ≠ "" := by
  cases v <;> simp [cleanString]

/-- **C4** (confirmed).  `isSongRecord` returns `true` iff, after
trimming, both the track name and the artist name are non-empty strings
and neither an episode name nor an episode URI is present (non-empty);
a missing or non-string value behaves as the empty string.  The model
is a total function, so no input record can raise an exception. -/
theorem isSongRecord_iff_claim (record : RawRecord) :
    isSongRecord record = true ↔
      ((∃ s, record.master_metadata_track_name = JSValue.str s ∧ jsTrim s ≠ "") ∧
       (∃ s, record.master_metadata_album_artist_name = JSValue.str s ∧ jsTrim s ≠ "") ∧
       (∀ s, record.episode_name = JSValue.str s → jsTrim s = "") ∧
       (∀ s, record.spotify_episode_uri = JSValue.str s → jsTrim s = "")) := by
  rw [← cleanString_ne_empty_iff, ← cleanString_ne_empty_iff,
    ← cleanString_eq_empty_iff, ← cleanString_eq_empty_iff]
  simp only [isSongRecord]
  split_ifs with h1 h2
  · simp only [Bool.false_eq_true, false_iff]
    rintro ⟨ht, ha, -, -⟩
    rcases h1 with h | h
    · exact ht h
    · exact ha h
  · simp only [Bool.false_eq_true, false_iff]
    rintro ⟨-, -, he, hu⟩
    rcases h2 with h | h
    · exact h he
    · exact h hu
  · simp only [true_iff]
    push_neg at h1 h2
    exact ⟨h1.1, h1.2, h2.1, h2.2⟩

/-- Witness for C4 at a concrete record. -/
theorem isSongRecord_iff_claim_witness :
    isSongRecord
      { master_metadata_track_name := JSValue.str " Song X ",
        master_metadata_album_artist_name := JSValue.str "Artist A" } = true :=
  (isSongRecord_iff_claim _).mpr
    ⟨⟨" Song X ", rfl, by decide⟩, ⟨"Artist A", rfl, by decide⟩,
      fun _ h => JSValue.noConfusion h, fun _ h => JSValue.noConfusion h⟩

/-! ## C5: milliseconds sanitization -/
/-- **C5** (confirmed).  `sanitizeMs` coerces `ms_played` to a number;
a non-finite coercion or a negative value gives 0; otherwise the value
is rounded to the nearest integer (`⌊q + 1/2⌋`, ties up — rounding, not
truncation).  In particular `-500 ↦ 0` and `"120.9" ↦ 121`. -/
theorem sanitizeMs_claim (v : JSValue) (q : ℚ) :
    ((toNumber v).isFinite = false → sanitizeMs v = 0) ∧
    (toNumber v = .finite q → q < 0 → sanitizeMs v = 0) ∧
    (toNumber v = .finite q → 0 ≤ q → (sanitizeMs v : ℤ) = ⌊q + 1 / 2⌋) ∧
    sanitizeMs (.num (.finite (-500))) = 0 ∧
    sanitizeMs (.str "120.9") = 121 := by
  refine ⟨?_, ?_, ?_, by decide, by decide⟩
  · intro h
    rcases hv : toNumber v with _ | _ | _ | q2 <;> simp [sanitizeMs, hv]
    rw [hv] at h
    simp [JSNumber.isFinite] at h
  · intro hv hneg
    simp [sanitizeMs, hv, hneg]
  · intro hv hpos
    simp only [sanitizeMs, hv, not_lt.mpr hpos, if_false]
    have h0 : 0 ≤ jsMathRound q := by
      rw [jsMathRound_eq_floor]
      exact Int.floor_nonneg.mpr (by linarith)
    rw [Int.toNat_of_nonneg h0, jsMathRound_eq_floor]

/-- Witness for C5: the `"120.9"` boundary case goes through the
round-to-nearest branch of the theorem. -/
theorem sanitizeMs_claim_witness :
    (sanitizeMs (JSValue.str "120.9") : ℤ) = ⌊Rat.divInt 1209 10 + 1 / 2⌋ :=
  (sanitizeMs_claim (JSValue.str "120.9") (Rat.divInt 1209 10)).2.2.1 (by decide)
    (by rw [Rat.divInt_eq_div]; norm_num)

/-! ## C10: the composite song key -/
theorem splitAtFirst_append (c : Char) (l r : List Char) (h : c ∉ l) :
    splitAtFirst c (l ++ c :: r) = some (l, r) := by
  induction l with
  | nil => simp [splitAtFirst]
  | cons x xs ih =>
    rw [List.cons_append, splitAtFirst]
    have hx : ¬x = c := fun he => h (he ▸ List.mem_cons_self x xs)
    rw [if_neg hx, ih (fun hm => h (List.mem_cons_of_mem _ hm))]
    rfl

theorem makeSongKey_toList (song artist : String) :
    (makeSongKey song artist).toList = song.toList ++ KEY_SEP :: artist.toList := by
  simp [makeSongKey, String.toList]

theorem splitSongKey_makeSongKey (song artist : String)
    (h : KEY_SEP ∉ song.toList) :
    splitSongKey (makeSongKey song artist) = (song, artist) := by
  unfold splitSongKey
  rw [makeSongKey_toList, splitAtFirst_append _ _ _ h]
  rfl

/-- **C10** (confirmed).  When the song title does not contain the
separator `U+001F`, `splitSongKey` inverts `makeSongKey`; and the
precondition is necessary: with a `U+001F` inside the song title,
`makeSongKey` collides two distinct `(song, artist)` pairs. -/
theorem songKey_roundtrip_iff_no_sep (song artist : String)
    (h : KEY_SEP ∉ song.toList) :
    splitSongKey (makeSongKey song artist) = (song, artist) ∧
    (makeSongKey (String.mk ['A', KEY_SEP, 'B']) (String.mk ['C']) =
        makeSongKey (String.mk ['A']) (String.mk ['B', KEY_SEP, 'C']) ∧
      (String.mk ['A', KEY_SEP, 'B'], String.mk ['C']) ≠
        (String.mk ['A'], String.mk ['B', KEY_SEP, 'C'])) :=
  ⟨splitSongKey_makeSongKey song artist h, by decide, by decide⟩

/-- Witness for C10 at a concrete separator-free pair. -/
theorem songKey_roundtrip_witness :
    splitSongKey (makeSongKey "Song X" "Artist A") = ("Song X", "Artist A") :=
  (songKey_roundtrip_iff_no_sep "Song X" "Artist A" (by decide)).1

theorem peakLE_refl (val : α → ℕ) (tie : α → String) (x : α) :
    peakLE val tie x x :=
  Or.inr ⟨rfl, le_refl _⟩

theorem peakLE_trans {val : α → ℕ} {tie : α → String} {x y z : α}
    (h1 : peakLE val tie x y) (h2 : peakLE val tie y z) : peakLE val tie x z := by
  rcases h1 with h1 | ⟨h1, h1t⟩ <;> rcases h2 with h2 | ⟨h2, h2t⟩
  · exact Or.inl (h1.trans h2)
  · exact Or.inl (h2 ▸ h1)
  · exact Or.inl (h1 ▸ h2)
  · exact Or.inr ⟨h1.trans h2, le_trans h1t h2t⟩

theorem pickPeak_foldl_spec (val : α → ℕ) (tie : α → String) :
    ∀ (rest : List α) (b : α),
      (rest.foldl
          (fun best cur =>
            if val best < val cur ∨ (val cur = val best ∧ tie best < tie cur)
            then cur else best) b = b ∨
        rest.foldl
          (fun best cur =>
            if val best < val cur ∨ (val cur = val best ∧ tie best < tie cur)
            then cur else best) b ∈ rest) ∧
      peakLE val tie b
        (rest.foldl
          (fun best cur =>
            if val best < val cur ∨ (val cur = val best ∧ tie best < tie cur)
            then cur else best) b) ∧
      ∀ x ∈ rest,
        peakLE val tie x
          (rest.foldl
            (fun best cur =>
              if val best < val cur ∨ (val cur = val best ∧ tie best < tie cur)
              then cur else best) b) := by
  intro rest
  induction rest with
  | nil =>
    intro b
    exact ⟨Or.inl rfl, peakLE_refl val tie b, by intro x hx; cases hx⟩
  | cons c rest ih =>
    intro b
    by_cases hc : val b < val c ∨ (val c = val b ∧ tie b < tie c)
    · have hstep : (c :: rest).foldl
          (fun best cur =>
            if val best < val cur ∨ (val cur = val best ∧ tie best < tie cur)
            then cur else best) b =
          rest.foldl
            (fun best cur =>
              if val best < val cur ∨ (val cur = val best ∧ tie best < tie cur)
              then cur else best) c := by
        rw [List.foldl_cons, if_pos hc]
      obtain ⟨hmem, hble, hall⟩ := ih c
      have hbc : peakLE val tie b c := by
        rcases hc with hc | ⟨hceq, hct⟩
        · exact Or.inl hc
        · exact Or.inr ⟨hceq.symm, le_of_lt hct⟩
      refine ⟨?_, ?_, ?_⟩
      · rw [hstep]
        rcases hmem with hmem | hmem
        · exact Or.inr (by rw [hmem]; exact List.mem_cons_self c rest)
        · exact Or.inr (List.mem_cons_of_mem _ hmem)
      · rw [hstep]
        exact peakLE_trans hbc hble
      · intro x hx
        rw [hstep]
        rcases List.mem_cons.mp hx with hx | hx
        · exact hx ▸ hble
        · exact hall x hx
    · have hstep : (c :: rest).foldl
          (fun best cur =>
            if val best < val cur ∨ (val cur = val best ∧ tie best < tie cur)
            then cur else best) b =
          rest.foldl
            (fun best cur =>
              if val best < val cur ∨ (val cur = val best ∧ tie best < tie cur)
              then cur else best) b := by
        rw [List.foldl_cons, if_neg hc]
      obtain ⟨hmem, hble, hall⟩ := ih b
      have hcb : peakLE val tie c b := by
        push_neg at hc
        rcases lt_or_eq_of_le hc.1 with hlt | heq
        · exact Or.inl hlt
        · exact Or.inr ⟨heq, not_lt.mp (hc.2 heq)⟩
      refine ⟨?_, ?_, ?_⟩
      · rw [hstep]
        rcases hmem with hmem | hmem
        · exact Or.inl hmem
        · exact Or.inr (List.mem_cons_of_mem _ hmem)
      · rw [hstep]
        exact hble
      · intro x hx
        rw [hstep]
        rcases List.mem_cons.mp hx with hx | hx
        · exact hx ▸ peakLE_trans hcb hble
        · exact hall x hx

/-- **C7** (confirmed).  On an empty series `pickPeak` returns no peak;
on a non-empty series it returns a member row that is maximal for total
milliseconds, and among rows tied at the maximum its tie-break string is
the greatest (a strictly greater value, or an equal value and a
greater-or-equal key string, compared against every row). -/
theorem pickPeak_claim (rows : List α) (val : α → ℕ) (tie : α → String)
    (h : rows ≠ []) :
    pickPeak ([] : List α) val tie = none ∧
    ∃ b, pickPeak rows val tie = some b ∧ b ∈ rows ∧
      ∀ r ∈ rows, val r < val b ∨ (val r = val b ∧ tie r ≤ tie b) := by
  refine ⟨rfl, ?_⟩
  match rows with
  | [] => exact absurd rfl h
  | r :: rest =>
    obtain ⟨hmem, hble, hall⟩ := pickPeak_foldl_spec val tie rest r
    refine ⟨_, rfl, ?_, ?_⟩
    · rcases hmem with hmem | hmem
      · rw [hmem]
        exact List.mem_cons_self r rest
      · exact List.mem_cons_of_mem _ hmem
    · intro x hx
      rcases List.mem_cons.mp hx with hx | hx
      · exact hx ▸ hble
      · exact hall x hx

/-- Witness for C7: the two-month tie at 3000 ms. -/
theorem pickPeak_claim_witness :
    pickPeak ([] : List (String × ℕ)) Prod.snd Prod.fst = none ∧
    ∃ b, pickPeak [("2023-05", 3000), ("2023-06", 3000)] Prod.snd Prod.fst
        = some b ∧
      b ∈ [("2023-05", 3000), ("2023-06", 3000)] ∧
      ∀ r ∈ [("2023-05", 3000), ("2023-06", 3000)],
        r.2 < b.2 ∨ (r.2 = b.2 ∧ r.1 ≤ b.1) :=
  pickPeak_claim [("2023-05", 3000), ("2023-06", 3000)] Prod.snd Prod.fst
    (by decide)

theorem mapSet_of_not_mem [DecidableEq κ] (m : List (κ × ν)) (k : κ) (v : ν)
    (h : k ∉ mapKeys m) : mapSet m k v = m ++ [(k, v)] := by
  induction m with
  | nil => rfl
  | cons p rest ih =>
    have hp : p.1 ≠ k := by
      intro he
      exact h (he ▸ List.mem_cons_self p.1 (mapKeys rest))
    rw [mapSet, if_neg hp, List.cons_append,
      ih (fun hm => h (List.mem_cons_of_mem _ hm))]

/-- What the `mostCommonCounterKey` scan computes: either nothing beat
the initial best, or the counter splits around the first entry that
attains the (strict) running maximum. -/
theorem mostCommon_scan :
    ∀ (l : List (String × ℕ)) (b : String × ℤ),
      (l.foldl
          (fun best kv => if (kv.2 : ℤ) > best.2 then (kv.1, (kv.2 : ℤ)) else best)
          b = b ∧ ∀ p ∈ l, (p.2 : ℤ) ≤ b.2) ∨
      (∃ pre p post, l = pre ++ p :: post ∧
        l.foldl
          (fun best kv => if (kv.2 : ℤ) > best.2 then (kv.1, (kv.2 : ℤ)) else best)
          b = (p.1, (p.2 : ℤ)) ∧
        b.2 < (p.2 : ℤ) ∧ (∀ q ∈ pre, (q.2 : ℤ) < (p.2 : ℤ)) ∧
        (∀ q ∈ l, (q.2 : ℤ) ≤ (p.2 : ℤ))) := by
  intro l
  induction l with
  | nil =>
    intro b
    exact Or.inl ⟨rfl, by intro p hp; cases hp⟩
  | cons x rest ih =>
    intro b
    by_cases hx : (x.2 : ℤ) > b.2
    · have hstep : (x :: rest).foldl
          (fun best kv => if (kv.2 : ℤ) > best.2 then (kv.1, (kv.2 : ℤ)) else best)
          b =
          rest.foldl
            (fun best kv => if (kv.2 : ℤ) > best.2 then (kv.1, (kv.2 : ℤ)) else best)
            (x.1, (x.2 : ℤ)) := by
        rw [List.foldl_cons, if_pos hx]
      rcases ih (x.1, (x.2 : ℤ)) with ⟨heq, hall⟩ | ⟨pre, p, post, hsplit, heq, hlt, hpre, hall⟩
      · refine Or.inr ⟨[], x, rest, rfl, by rw [hstep, heq], hx, ?_, ?_⟩
        · intro q hq
          cases hq
        · intro q hq
          rcases List.mem_cons.mp hq with hq | hq
          · exact hq ▸ le_refl _
          · exact hall q hq
      · refine Or.inr ⟨x :: pre, p, post, by rw [hsplit]; rfl, by rw [hstep, heq],
          lt_trans hx hlt, ?_, ?_⟩
        · intro q hq
          rcases List.mem_cons.mp hq with hq | hq
          · exact hq ▸ hlt
          · exact hpre q hq
        · intro q hq
          rcases List.mem_cons.mp hq with hq | hq
          · exact hq ▸ le_of_lt hlt
          · exact hall q hq
    · have hstep : (x :: rest).foldl
          (fun best kv => if (kv.2 : ℤ) > best.2 then (kv.1, (kv.2 : ℤ)) else best)
          b =
          rest.foldl
            (fun best kv => if (kv.2 : ℤ) > best.2 then (kv.1, (kv.2 : ℤ)) else best)
            b := by
        rw [List.foldl_cons, if_neg hx]
      rcases ih b with ⟨heq, hall⟩ | ⟨pre, p, post, hsplit, heq, hlt, hpre, hall⟩
      · refine Or.inl ⟨by rw [hstep, heq], ?_⟩
        intro q hq
        rcases List.mem_cons.mp hq with hq | hq
        · exact hq ▸ not_lt.mp hx
        · exact hall q hq
      · refine Or.inr ⟨x :: pre, p, post, by rw [hsplit]; rfl, by rw [hstep, heq], hlt, ?_, ?_⟩
        · intro q hq
          rcases List.mem_cons.mp hq with hq | hq
          · exact hq ▸ lt_of_le_of_lt (not_lt.mp hx) hlt
          · exact hpre q hq
        · intro q hq
          rcases List.mem_cons.mp hq with hq | hq
          · exact hq ▸ le_of_lt (lt_of_le_of_lt (not_lt.mp hx) hlt)
          · exact hall q hq

/-- The structural invariant of a counter built by repeated
`incrementCounter` over the prefix `pre` of `full`: keys are exactly the
distinct non-empty values seen, counts are occurrence counts, and the
keys sit in first-occurrence order. -/
theorem buildCounter_inv (full : List String) :
    ∀ (vals pre : List String) (c : List (String × ℕ)),
      full = pre ++ vals →
      (mapKeys c).Nodup →
      (∀ p ∈ c, p.1 ≠ "" ∧ p.1 ∈ pre ∧ p.2 = pre.count p.1) →
      (∀ v ∈ pre, v ≠ "" → v ∈ mapKeys c) →
      List.Pairwise (fun a b => full.indexOf a < full.indexOf b) (mapKeys c) →
      ((mapKeys (vals.foldl incrementCounter c)).Nodup ∧
       (∀ p ∈ vals.foldl incrementCounter c,
          p.1 ≠ "" ∧ p.1 ∈ full ∧ p.2 = full.count p.1) ∧
       (∀ v ∈ full, v ≠ "" → v ∈ mapKeys (vals.foldl incrementCounter c)) ∧
       List.Pairwise (fun a b => full.indexOf a < full.indexOf b)
         (mapKeys (vals.foldl incrementCounter c))) := by
  intro vals
  induction vals with
  | nil =>
    intro pre c hfull hnd hpairs hmem hpw
    rw [List.append_nil] at hfull
    subst hfull
    exact ⟨hnd, hpairs, hmem, hpw⟩
  | cons w vs ih =>
    intro pre c hfull hnd hpairs hmem hpw
    rw [List.foldl_cons]
    have hfull2 : full = (pre ++ [w]) ++ vs := by
      rw [hfull, List.append_assoc, List.singleton_append]
    by_cases hw : w = ""
    · subst hw
      refine ih (pre ++ [""]) c hfull2 hnd ?_ ?_ hpw
      · intro p hp
        obtain ⟨h1, h2, h3⟩ := hpairs p hp
        refine ⟨h1, List.mem_append_left _ h2, ?_⟩
        rw [List.count_append, h3]
        have : List.count p.1 [""] = 0 := by
          simp [List.count_singleton]
          exact fun he => h1 he.symm
        omega
      · intro v hv hvne
        rcases List.mem_append.mp hv with hv | hv
        · exact hmem v hv hvne
        · rw [List.mem_singleton] at hv
          exact absurd hv hvne
    · rw [incrementCounter, if_neg hw]
      rcases hget : mapGet c w with _ | n
      · -- new key: appended at the end
        have hwk : w ∉ mapKeys c := (mapGet_eq_none_iff c w).mp hget
        have hwpre : w ∉ pre := fun hmm => hwk (hmem w hmm hw)
        rw [mapSet_of_not_mem c w _ hwk]
        have hkeys : mapKeys (c ++ [(w, (Option.none).getD 0 + 1)]) =
            mapKeys c ++ [w] := by
          simp [mapKeys]
        refine ih (pre ++ [w]) _ hfull2 ?_ ?_ ?_ ?_
        · rw [hkeys]
          simpa [List.nodup_append] using ⟨hnd, hwk⟩
        · intro p hp
          rcases List.mem_append.mp hp with hp | hp
          · obtain ⟨h1, h2, h3⟩ := hpairs p hp
            have hne : p.1 ≠ w := by
              intro he
              exact hwpre (he ▸ h2)
            refine ⟨h1, List.mem_append_left _ h2, ?_⟩
            rw [List.count_append, h3]
            have : List.count p.1 [w] = 0 := by
              simp [List.count_singleton]
              exact fun he => hne he.symm
            omega
          · rw [List.mem_singleton] at hp
            subst hp
            refine ⟨hw, List.mem_append_right _ (List.mem_singleton.mpr rfl), ?_⟩
            rw [List.count_append]
            have h0 : List.count w pre = 0 := List.count_eq_zero.mpr hwpre
            simp [h0, List.count_singleton]
        · intro v hv hvne
          rw [hkeys]
          rcases List.mem_append.mp hv with hv | hv
          · exact List.mem_append_left _ (hmem v hv hvne)
          · exact List.mem_append_right _ hv
        · rw [hkeys]
          rw [List.pairwise_append]
          refine ⟨hpw, List.pairwise_singleton _ _, ?_⟩
          intro a ha y hy
          have hy2 : y = w := List.mem_singleton.mp hy
          rw [hy2]
          -- a is a key of c, hence occurs in pre; w first occurs at |pre|
          have hapre : a ∈ pre := by
            rcases List.mem_map.mp ha with ⟨p, hp, hpe⟩
            exact hpe ▸ (hpairs p hp).2.1
          have hlt1 : full.indexOf a < pre.length := by
            rw [hfull, List.indexOf_append_of_mem hapre]
            exact List.indexOf_lt_length.mpr hapre
          have hlt2 : full.indexOf w = pre.length := by
            rw [hfull, List.indexOf_append_of_not_mem hwpre,
              List.indexOf_cons_self, Nat.add_zero]
          omega
      · -- existing key: value updated in place
        have hwk : w ∈ mapKeys c := by
          by_contra hcon
          rw [← mapGet_eq_none_iff c w] at hcon
          rw [hget] at hcon
          cases hcon
        have hkeys : mapKeys (mapSet c w ((some n).getD 0 + 1)) = mapKeys c := by
          rw [mapKeys_mapSet, if_pos hwk]
        have hwn : (w, n) ∈ c := mem_of_mapGet_eq_some hget
        have hwpre : w ∈ pre := (hpairs (w, n) hwn).2.1
        refine ih (pre ++ [w]) _ hfull2 ?_ ?_ ?_ ?_
        · rw [hkeys]
          exact hnd
        · intro p hp
          rcases (mem_mapSet_iff w _ p c hnd).mp hp with hp | ⟨hp, hpne⟩
          · subst hp
            refine ⟨hw, List.mem_append_left _ hwpre, ?_⟩
            have h3 := (hpairs (w, n) hwn).2.2
            rw [List.count_append]
            simp only [Option.getD_some]
            rw [← h3]
            have : List.count w [w] = 1 := by simp
            omega
          · obtain ⟨h1, h2, h3⟩ := hpairs p hp
            refine ⟨h1, List.mem_append_left _ h2, ?_⟩
            rw [List.count_append, h3]
            have : List.count p.1 [w] = 0 := by
              simp [List.count_singleton]
              exact fun he => hpne he.symm
            omega
        · intro v hv hvne
          rw [hkeys]
          rcases List.mem_append.mp hv with hv | hv
          · exact hmem v hv hvne
          · rw [List.mem_singleton] at hv
            exact hv ▸ hwk
        · rw [hkeys]
          exact hpw

/-- **C8** (confirmed).  Feeding the per-song sequence of observed
(album or URI) values through `incrementCounter` and reading the result
with `mostCommonCounterKey` yields the most frequent non-empty value,
with ties among maximal counts broken in favour of the value whose
first observation is earliest — which relies exactly on the counter
preserving insertion order as iteration order. -/
theorem mostCommonCounterKey_claim (values : List String)
    (h : ∃ v ∈ values, v ≠ "") :
    (mostCommonCounterKey (buildCounter values) ∈ values ∧
      mostCommonCounterKey (buildCounter values) ≠ "") ∧
    (∀ v ∈ values, v ≠ "" →
      values.count v ≤ values.count (mostCommonCounterKey (buildCounter values))) ∧
    (∀ v ∈ values, v ≠ "" →
      values.count v = values.count (mostCommonCounterKey (buildCounter values)) →
      values.indexOf (mostCommonCounterKey (buildCounter values)) ≤
        values.indexOf v) := by
  obtain ⟨hnd, hpairs, hmem, hpw⟩ :=
    buildCounter_inv values values [] []
      (by simp) (by simp [mapKeys]) (by simp) (by simp) (by simp [mapKeys])
  simp only [buildCounter]
  set counter := List.foldl incrementCounter [] values with hcdef
  obtain ⟨v0, hv0, hv0ne⟩ := h
  have hv0k : v0 ∈ mapKeys counter := hmem v0 hv0 hv0ne
  rcases mostCommon_scan counter ("", -1) with ⟨-, hall⟩ | hspec
  · obtain ⟨p0, hp0, hp0e⟩ := List.mem_map.mp hv0k
    have h2 : (p0.2 : ℤ) ≤ -1 := hall p0 hp0
    omega
  · obtain ⟨pre, p, post, hsplit, heq, -, hpre, hall⟩ := hspec
    have hbest : mostCommonCounterKey counter = p.1 := by
      rw [mostCommonCounterKey, heq]
    have hpmem : p ∈ counter := by
      rw [hsplit]
      exact List.mem_append_right _ (List.mem_cons_self p post)
    obtain ⟨hp1, hp2, hp3⟩ := hpairs p hpmem
    rw [hbest]
    refine ⟨⟨hp2, hp1⟩, ?_, ?_⟩
    · intro v hv hvne
      obtain ⟨q, hq, hqe⟩ := List.mem_map.mp (hmem v hv hvne)
      have hqc := (hpairs q hq).2.2
      have := hall q hq
      rw [hqe] at hqc
      omega
    · intro v hv hvne hcnt
      obtain ⟨q, hq, hqe⟩ := List.mem_map.mp (hmem v hv hvne)
      have hqc := (hpairs q hq).2.2
      rw [hqe] at hqc
      rw [hsplit] at hq
      rcases List.mem_append.mp hq with hq | hq
      · have := hpre q hq
        omega
      · rcases List.mem_cons.mp hq with hq | hq
        · rw [← hqe, hq]
        · have hpwpq : values.indexOf p.1 < values.indexOf q.1 := by
            have : List.Pairwise (fun a b => values.indexOf a < values.indexOf b)
                (mapKeys pre ++ p.1 :: mapKeys post) := by
              have : mapKeys counter = mapKeys pre ++ p.1 :: mapKeys post := by
                rw [hsplit]
                simp [mapKeys]
              rw [← this]
              exact hpw
            have h2 := (List.pairwise_append.mp this).2.1
            rw [List.pairwise_cons] at h2
            exact h2.1 q.1 (List.mem_map.mpr ⟨q, hq, rfl⟩)
          rw [← hqe]
          exact le_of_lt hpwpq

/-- Witness for C8: the tie between `"a"` and `"b"` (two observations
each) resolves to first-seen `"a"`. -/
theorem mostCommonCounterKey_claim_witness :
    (mostCommonCounterKey (buildCounter ["a", "b", "", "b", "a"]) ∈
        ["a", "b", "", "b", "a"] ∧
      mostCommonCounterKey (buildCounter ["a", "b", "", "b", "a"]) ≠ "") ∧
    (∀ v ∈ ["a", "b", "", "b", "a"], v ≠ "" →
      List.count v ["a", "b", "", "b", "a"] ≤
        List.count (mostCommonCounterKey (buildCounter ["a", "b", "", "b", "a"]))
          ["a", "b", "", "b", "a"]) ∧
    (∀ v ∈ ["a", "b", "", "b", "a"], v ≠ "" →
      List.count v ["a", "b", "", "b", "a"] =
        List.count (mostCommonCounterKey (buildCounter ["a", "b", "", "b", "a"]))
          ["a", "b", "", "b", "a"] →
      List.indexOf (mostCommonCounterKey (buildCounter ["a", "b", "", "b", "a"]))
          ["a", "b", "", "b", "a"] ≤
        List.indexOf v ["a", "b", "", "b", "a"]) :=
  mostCommonCounterKey_claim ["a", "b", "", "b", "a"]
    ⟨"a", by decide, by decide⟩

theorem runPass_counters (tz : ℤ) :
    ∀ (records : List RawRecord) (st : AccState),
      (runPass tz st records).songRecordsUsed =
        st.songRecordsUsed + records.countP (accepted tz) ∧
      (runPass tz st records).ignoredNonSong =
        st.ignoredNonSong + records.countP (fun r => ! isSongRecord r) ∧
      (runPass tz st records).ignoredBadTimestamp =
        st.ignoredBadTimestamp +
          records.countP (fun r => isSongRecord r && (parseTimestamp tz r.ts).isNone) := by
  intro records
  induction records with
  | nil =>
    intro st
    simp [runPass]
  | cons r rest ih =>
    intro st
    rw [runPass]
    obtain ⟨h1, h2, h3⟩ := ih (applyRecord tz st r)
    rw [h1, h2, h3]
    by_cases hs : isSongRecord r
    · rcases hp : parseTimestamp tz r.ts with _ | t
      · simp only [applyRecord, hs, hp, Bool.not_true, List.countP_cons, accepted]
        simp [hs, hp]
        omega
      · simp only [applyRecord, hs, hp, Bool.not_true, List.countP_cons, accepted]
        simp [hs, hp]
        omega
    · simp only [applyRecord, hs, Bool.not_false, List.countP_cons, accepted]
      simp [hs]
      omega

theorem counts_partition (tz : ℤ) :
    ∀ records : List RawRecord,
      records.countP (accepted tz) + records.countP (fun r => ! isSongRecord r) +
        records.countP
          (fun r => isSongRecord r && (parseTimestamp tz r.ts).isNone) =
        records.length := by
  intro records
  induction records with
  | nil => simp
  | cons r rest ih =>
    simp only [List.countP_cons, List.length_cons]
    by_cases hs : isSongRecord r
    · rcases hp : parseTimestamp tz r.ts with _ | t <;>
        simp [accepted, hs, hp] <;> omega
    · simp [accepted, hs]
      omega

/-- **C2** (confirmed).  Each input record increments exactly one of the
three provenance counters: `songRecordsUsed + ignoredNonSong +
ignoredBadTimestamp = totalRecordsRead`, and `totalRecordsRead` is the
input length. -/
theorem provenance_partition (tz : ℤ) (records : List RawRecord) :
    (buildReport tz records).songRecordsUsed +
        (buildReport tz records).ignoredNonSong +
        (buildReport tz records).ignoredBadTimestamp =
      (buildReport tz records).totalRecordsRead ∧
    (buildReport tz records).totalRecordsRead = records.length := by
  obtain ⟨h1, h2, h3⟩ := runPass_counters tz records initState
  have e1 : (buildReport tz records).songRecordsUsed =
      (runPass tz initState records).songRecordsUsed := rfl
  have e2 : (buildReport tz records).ignoredNonSong =
      (runPass tz initState records).ignoredNonSong := rfl
  have e3 : (buildReport tz records).ignoredBadTimestamp =
      (runPass tz initState records).ignoredBadTimestamp := rfl
  have e4 : (buildReport tz records).totalRecordsRead = records.length := rfl
  rw [e1, e2, e3, e4, h1, h2, h3]
  simp only [initState, Nat.zero_add]
  exact ⟨counts_partition tz records, trivial⟩

/-- **C3** (confirmed).  The report-production step raises the
distinguished "no usable records" error iff the accepted-event count is
zero, otherwise it returns the report; and the pass itself always
completes over every record (`totalRecordsRead` covers the whole
input), so no per-record irregularity can abort it. -/
theorem noUsable_fatal_iff (tz : ℤ) (records : List RawRecord) :
    (processRecords tz records = Except.error noUsableRecordsMsg ↔
      records.countP (accepted tz) = 0) ∧
    (records.countP (accepted tz) ≠ 0 →
      processRecords tz records = Except.ok (buildReport tz records)) ∧
    (buildReport tz records).totalRecordsRead = records.length := by
  have hused : (buildReport tz records).songRecordsUsed =
      records.countP (accepted tz) := by
    have h1 := (runPass_counters tz records initState).1
    have e1 : (buildReport tz records).songRecordsUsed =
        (runPass tz initState records).songRecordsUsed := rfl
    rw [e1, h1]
    simp [initState]
  refine ⟨?_, ?_, rfl⟩
  · simp only [processRecords]
    split_ifs with h0
    · rw [hused] at h0
      simp [h0]
    · rw [hused] at h0
      constructor
      · intro he
        cases he
      · intro hc
        exact absurd hc h0
  · intro hne
    simp only [processRecords]
    rw [if_neg (by rw [hused]; exact hne)]

/-- Witness for C3: one usable record produces an `ok` report. -/
theorem noUsable_fatal_iff_witness :
    processRecords 0 [demoRecord] = Except.ok (buildReport 0 [demoRecord]) :=
  (noUsable_fatal_iff 0 [demoRecord]).2.1 (by decide)

/-! ## C1: the timestamp parsing policy -/
theorem toNat_bounds_of_isDigit {c : Char} (h : c.isDigit = true) :
    48 ≤ c.toNat ∧ c.toNat ≤ 57 := by
  simp only [Char.isDigit, Bool.and_eq_true, decide_eq_true_eq] at h
  obtain ⟨h1, h2⟩ := h
  exact ⟨UInt32.le_def.mp h1, UInt32.le_def.mp h2⟩

theorem isJsWhitespace_eq_false_of_isDigit {c : Char} (h : c.isDigit = true) :
    isJsWhitespace c = false := by
  obtain ⟨h1, h2⟩ := toNat_bounds_of_isDigit h
  simp only [isJsWhitespace, decide_eq_false_iff_not]
  push_neg
  omega

theorem jsTrimList_ne_nil {l : List Char} {x : Char} (hx : x ∈ l)
    (hxw : isJsWhitespace x = false) : jsTrimList l ≠ [] := by
  intro h
  rw [jsTrimList, List.reverse_eq_nil_iff] at h
  have h4 : ∀ y ∈ l.dropWhile isJsWhitespace, isJsWhitespace y := by
    intro y hy
    exact List.dropWhile_eq_nil_iff.mp h y (List.mem_reverse.mpr hy)
  have h5 : ∀ y ∈ l, isJsWhitespace y := by
    intro y hy
    rw [← List.takeWhile_append_dropWhile (p := isJsWhitespace) (l := l)] at hy
    rcases List.mem_append.mp hy with hy | hy
    · exact List.mem_takeWhile_imp hy
    · exact h4 y hy
  rw [h5 x hx] at hxw
  cases hxw

theorem jsTrim_ne_empty_of_parseIsoDate {tz : ℤ} {s : String} {d : ℤ}
    (h : parseIsoDate tz s = some d) : jsTrim s ≠ "" := by
  rcases ht : takeDigits 4 s.toList with _ | p
  · rw [parseIsoDate, ht] at h
    cases h
  · rw [takeDigits] at ht
    split_ifs at ht with hcond
    · obtain ⟨hlen, hdig⟩ := hcond
      have hne : s.toList ≠ [] := by
        intro he
        rw [he] at hlen
        simp at hlen
      rcases hl : s.toList with _ | ⟨c, rest⟩
      · exact absurd hl hne
      · have hc : c ∈ s.toList.take 4 := by
          rw [hl]
          rw [List.take_cons (by omega)]
          exact List.mem_cons_self c _
        have hcd : c.isDigit = true := by
          rw [List.all_eq_true] at hdig
          exact hdig c hc
        have hmem : c ∈ s.toList := by
          rw [hl]
          exact List.mem_cons_self c rest
        intro hemp
        refine jsTrimList_ne_nil hmem (isJsWhitespace_eq_false_of_isDigit hcd) ?_
        have : (jsTrim s).toList = jsTrimList s.toList := rfl
        rw [hemp] at this
        exact this.symm

/-- **C1** (confirmed).  `parseTimestamp` tries a direct ISO-8601 parse
first and returns its result whenever it succeeds; for the
space-separated, zone-less `"2023-05-01 10:00:00"` the direct parse is
invalid (for every host time zone), the lenient repair (first space to
`T`, append `Z`) makes it parse, and the resulting instant falls in the
UTC month `2023-05`. -/
theorem parseTimestamp_claim (tz : ℤ) (s : String) (d : ℤ)
    (h : parseIsoDate tz s = some d) :
    parseTimestamp tz (JSValue.str s) = some d ∧
    parseIsoDate tz "2023-05-01 10:00:00" = none ∧
    parseTimestamp tz (JSValue.str "2023-05-01 10:00:00") =
      some 1682935200000 ∧
    timestampToMonthKey 1682935200000 = "2023-05" := by
  refine ⟨?_, rfl, rfl, by decide⟩
  simp only [parseTimestamp]
  rw [if_neg (jsTrim_ne_empty_of_parseIsoDate h), h]

/-- Witness for C1: the direct-parse path at the zoned timestamp. -/
theorem parseTimestamp_claim_witness :
    parseTimestamp 0 (JSValue.str "2023-05-02T11:00:00Z") =
      some 1683025200000 :=
  (parseTimestamp_claim 0 "2023-05-02T11:00:00Z" 1683025200000 (by decide)).1

/-! ## C6: the play-count comparator chain and the Top-10 view -/
theorem orInt_le_zero_iff (x y : ℤ) :
    orInt x y ≤ 0 ↔ (x < 0 ∨ (x = 0 ∧ y ≤ 0)) := by
  unfold orInt
  split_ifs with h <;> omega

theorem jsStrCmp_lt_zero_iff (a b : String) : jsStrCmp a b < 0 ↔ a < b := by
  unfold jsStrCmp
  split_ifs with h1 h2
  · simp [h1]
  · simp only [h1, iff_false]
    omega
  · simp only [h1, iff_false]
    omega

theorem jsStrCmp_eq_zero_iff (a b : String) : jsStrCmp a b = 0 ↔ a = b := by
  unfold jsStrCmp
  split_ifs with h1 h2
  · constructor
    · intro h
      cases h
    · intro h
      exact absurd (h ▸ h1) (lt_irrefl b)
  · constructor
    · intro h
      cases h
    · intro h
      exact absurd (h ▸ h2) (lt_irrefl b)
  · simp only [true_iff]
    exact le_antisymm (not_lt.mp h2) (not_lt.mp h1)

theorem jsStrCmp_le_zero_iff (a b : String) : jsStrCmp a b ≤ 0 ↔ a ≤ b := by
  rcases lt_trichotomy a b with h | h | h
  · simp [jsStrCmp, h, le_of_lt h]
  · simp [jsStrCmp, h]
  · simp only [jsStrCmp, if_neg (asymm h), if_pos h]
    constructor
    · intro hc
      omega
    · intro hc
      exact absurd h (not_lt.mpr hc)

theorem subCast_neg_iff (x y : ℕ) : ((x : ℤ) - y < 0) ↔ x < y := by omega

theorem subCast_zero_iff (x y : ℕ) : ((x : ℤ) - y = 0) ↔ x = y := by omega

theorem negCast_lt_iff (x y : ℕ) : (-(x : ℤ) < -(y : ℤ)) ↔ y < x := by omega

theorem negCast_eq_iff (x y : ℕ) : (-(x : ℤ) = -(y : ℤ)) ↔ y = x := by omega

theorem compareSongsByPlayCount_le_iff_spec (a b : SongRow) :
    compareSongsByPlayCount a b ≤ 0 ↔ specSongOrderByPlayCount a b := by
  unfold compareSongsByPlayCount specSongOrderByPlayCount
  simp only [orInt_le_zero_iff, subCast_neg_iff, subCast_zero_iff,
    jsStrCmp_lt_zero_iff, jsStrCmp_eq_zero_iff, jsStrCmp_le_zero_iff]

theorem songKeyByPlayCount_le_iff_spec (a b : SongRow) :
    songKeyByPlayCount a ≤ songKeyByPlayCount b ↔
      specSongOrderByPlayCount a b := by
  unfold songKeyByPlayCount specSongOrderByPlayCount
  simp only [Prod.Lex.le_iff, negCast_lt_iff, negCast_eq_iff]

/-- **C6** (confirmed).  The full song table is sorted by the chain:
play count descending, then total milliseconds descending, then skip
count descending, then artist ascending, then song ascending; the
Top-10-by-play-count view is exactly the first ten entries (a prefix)
of that table, hence has at most ten entries. -/
theorem songTable_order_claim (tz : ℤ) (records : List RawRecord) :
    List.Sorted specSongOrderByPlayCount (buildReport tz records).songRows ∧
    (buildReport tz records).top10ByPlayCount =
      (buildReport tz records).songRows.take 10 ∧
    (buildReport tz records).top10ByPlayCount.length ≤ 10 := by
  haveI hTrans : IsTrans SongRow (fun a b => compareSongsByPlayCount a b ≤ 0) := by
    constructor
    intro a b c hab hbc
    rw [compareSongsByPlayCount_le_iff_spec, ← songKeyByPlayCount_le_iff_spec] at *
    exact le_trans hab hbc
  haveI hTotal : IsTotal SongRow (fun a b => compareSongsByPlayCount a b ≤ 0) := by
    constructor
    intro a b
    rw [compareSongsByPlayCount_le_iff_spec, ← songKeyByPlayCount_le_iff_spec,
      compareSongsByPlayCount_le_iff_spec, ← songKeyByPlayCount_le_iff_spec]
    exact le_total _ _
  have hsorted : List.Sorted (fun a b => compareSongsByPlayCount a b ≤ 0)
      (buildReport tz records).songRows := by
    have e : (buildReport tz records).songRows =
        jsSort compareSongsByPlayCount
          ((mapValues (runPass tz initState records).songMap).map songRowOf) := rfl
    rw [e, jsSort]
    exact List.sorted_insertionSort _ _
  refine ⟨?_, ?_, ?_⟩
  · exact hsorted.imp (fun {a b} h => (compareSongsByPlayCount_le_iff_spec a b).mp h)
  · have e2 : (buildReport tz records).top10ByPlayCount =
        (jsSort compareSongsByPlayCount (buildReport tz records).songRows).take 10 :=
      rfl
    rw [e2, jsSort, List.Sorted.insertionSort_eq hsorted]
  · have e2 : (buildReport tz records).top10ByPlayCount =
        (jsSort compareSongsByPlayCount (buildReport tz records).songRows).take 10 :=
      rfl
    rw [e2]
    exact List.length_take_le _ _

/-! ## C9: generic list machinery -/
/-- Two sorted permutations of each other are equal as soon as the
order is antisymmetric on the members involved. -/
theorem sorted_perm_unique {r : α → α → Prop} :
    ∀ (l1 l2 : List α), l1.Perm l2 → List.Sorted r l1 → List.Sorted r l2 →
      (∀ a ∈ l1, ∀ b ∈ l2, r a b → r b a → a = b) → l1 = l2
  | [], [], _, _, _, _ => rfl
  | [], b :: t2, hp, _, _, _ => absurd hp (by simp)
  | a :: t1, [], hp, _, _, _ => absurd hp (by simp)
  | a :: t1, b :: t2, hp, hs1, hs2, hanti => by
    have hab : a = b := by
      by_cases he : a = b
      · exact he
      · have ha2 : a ∈ b :: t2 := hp.mem_iff.mp (List.mem_cons_self a t1)
        have hb1 : b ∈ a :: t1 := hp.mem_iff.mpr (List.mem_cons_self b t2)
        have ha2b : a ∈ t2 := by
          rcases List.mem_cons.mp ha2 with h | h
          · exact absurd h he
          · exact h
        have hb1a : b ∈ t1 := by
          rcases List.mem_cons.mp hb1 with h | h
          · exact absurd h.symm he
          · exact h
        have hrab : r a b := List.rel_of_sorted_cons hs1 b hb1a
        have hrba : r b a := List.rel_of_sorted_cons hs2 a ha2b
        exact hanti a (List.mem_cons_self _ _) b (List.mem_cons_self _ _) hrab hrba
    subst hab
    have hp2 : t1.Perm t2 := (List.perm_cons a).mp hp
    have hrec := sorted_perm_unique t1 t2 hp2 hs1.of_cons hs2.of_cons
      (fun x hx y hy => hanti x (List.mem_cons_of_mem _ hx) y
        (List.mem_cons_of_mem _ hy))
    rw [hrec]

/-- An association list whose values are determined by their keys is the
key list tabulated. -/
theorem assoc_eq_keys_map {F : κ → ν} :
    ∀ (m : List (κ × ν)), (∀ p ∈ m, p.2 = F p.1) →
      m = (mapKeys m).map (fun k => (k, F k))
  | [], _ => rfl
  | p :: rest, h => by
    have htail := assoc_eq_keys_map rest
      (fun q hq => h q (List.mem_cons_of_mem _ hq))
    have hp := h p (List.mem_cons_self _ _)
    simp only [mapKeys, List.map_cons]
    rw [show ((p.1, F p.1) : κ × ν) = p from Prod.ext rfl hp.symm]
    have : rest.map Prod.fst = mapKeys rest := rfl
    rw [this, ← htail]

theorem bumpCore_nil (c : SongCore) : bumpCore c [] = c := by
  simp [bumpCore]

theorem bumpCore_cons (c : SongCore) (r : RawRecord) (rs : List RawRecord) :
    bumpCore c (r :: rs) = bumpCore (bumpCore c [r]) rs := by
  simp only [bumpCore, SongCore.mk.injEq, List.length_cons, List.countP_cons,
    List.map_cons, List.sum_cons, List.length_nil, List.countP_nil,
    List.map_nil, List.sum_nil]
  refine ⟨trivial, trivial, by omega, by omega, by omega⟩

theorem bumpArtist_nil (e : ArtistEntry) : bumpArtist e [] = e := by
  simp [bumpArtist]

theorem bumpArtist_cons (e : ArtistEntry) (r : RawRecord) (rs : List RawRecord) :
    bumpArtist e (r :: rs) = bumpArtist (bumpArtist e [r]) rs := by
  simp only [bumpArtist, ArtistEntry.mk.injEq, List.length_cons, List.countP_cons,
    List.map_cons, List.sum_cons, List.length_nil, List.countP_nil,
    List.map_nil, List.sum_nil]
  refine ⟨trivial, by omega, by omega, by omega⟩

theorem bumpMonthSong_nil (e : MonthSongEntry) : bumpMonthSong e [] = e := by
  simp [bumpMonthSong]

theorem bumpMonthSong_cons (e : MonthSongEntry) (r : RawRecord)
    (rs : List RawRecord) :
    bumpMonthSong e (r :: rs) = bumpMonthSong (bumpMonthSong e [r]) rs := by
  simp only [bumpMonthSong, MonthSongEntry.mk.injEq, List.length_cons,
    List.map_cons, List.sum_cons, List.length_nil, List.map_nil, List.sum_nil]
  omega

theorem applyRecord_not_accepted (tz : ℤ) (st : AccState) (r : RawRecord)
    (h : accepted tz r = false) :
    (applyRecord tz st r).songMap = st.songMap ∧
    (applyRecord tz st r).artistMap = st.artistMap ∧
    (applyRecord tz st r).monthlySongMap = st.monthlySongMap ∧
    (applyRecord tz st r).monthlyMs = st.monthlyMs ∧
    (applyRecord tz st r).yearlyMs = st.yearlyMs := by
  by_cases hs : isSongRecord r
  · rcases hp : parseTimestamp tz r.ts with _ | t
    · simp [applyRecord, hs, hp]
    · rw [accepted, hs, hp] at h
      simp at h
  · simp [applyRecord, hs]

theorem applyRecord_songMap_acc (tz : ℤ) (st : AccState) (r : RawRecord)
    (t : ℤ) (hs : isSongRecord r = true) (hp : parseTimestamp tz r.ts = some t)
    (k : String) :
    (mapGet (applyRecord tz st r).songMap k).map coreOfEntry =
      if keyOf r = k
      then some (bumpCore
        (((mapGet st.songMap k).map coreOfEntry).getD (newCoreOf r)) [r])
      else (mapGet st.songMap k).map coreOfEntry := by
  simp only [applyRecord, hs, hp]
  have hkdef : makeSongKey (cleanString r.master_metadata_track_name)
      (cleanString r.master_metadata_album_artist_name) = keyOf r := rfl
  simp only [Bool.not_true, if_neg (by simp : ¬(¬True)), hkdef]
  by_cases hk : keyOf r = k
  · subst hk
    rw [if_pos rfl]
    rw [mapGet_mapSet_self]
    rcases hbase : mapGet st.songMap (keyOf r) with _ | e <;>
      simp [coreOfEntry, bumpCore, newCoreOf, msOf, skipOf, List.countP_cons]
  · rw [if_neg hk, mapGet_mapSet_ne _ _ _ _ (Ne.symm hk)]

theorem songMap_core_char (tz : ℤ) :
    ∀ (records : List RawRecord) (st : AccState) (k : String),
      (∀ r ∈ records, accepted tz r = true →
        KEY_SEP ∉ (cleanString r.master_metadata_track_name).toList) →
      (mapGet (runPass tz st records).songMap k).map coreOfEntry =
        (match (mapGet st.songMap k).map coreOfEntry with
         | some c => some (bumpCore c (songMatch tz k records))
         | none =>
           if songMatch tz k records = [] then none
           else some (bumpCore (newCore k) (songMatch tz k records))) := by
  intro records
  induction records with
  | nil =>
    intro st k _
    rw [runPass]
    rcases hbase : (mapGet st.songMap k).map coreOfEntry with _ | c
    · simp [songMatch, hbase]
    · simp [songMatch, hbase, bumpCore_nil]
  | cons r rest ih =>
    intro st k hsep
    have hsep2 : ∀ x ∈ rest, accepted tz x = true →
        KEY_SEP ∉ (cleanString x.master_metadata_track_name).toList :=
      fun x hx => hsep x (List.mem_cons_of_mem _ hx)
    rw [runPass]
    rw [ih (applyRecord tz st r) k hsep2]
    by_cases hacc : accepted tz r = true
    · have hs : isSongRecord r = true := by
        rw [accepted, Bool.and_eq_true] at hacc
        exact hacc.1
      obtain ⟨t, hp⟩ : ∃ t, parseTimestamp tz r.ts = some t := by
        rw [accepted, Bool.and_eq_true] at hacc
        exact Option.isSome_iff_exists.mp hacc.2
      rw [applyRecord_songMap_acc tz st r t hs hp k]
      have hmatch : songMatch tz k (r :: rest) =
          if keyOf r = k then r :: songMatch tz k rest else songMatch tz k rest := by
        rw [songMatch, List.filter_cons]
        by_cases hk : keyOf r = k
        · rw [if_pos (by simp [hacc, hk]), if_pos hk, songMatch]
        · rw [if_neg (by simp [hk]), if_neg hk, songMatch]
      rw [hmatch]
      by_cases hk : keyOf r = k
      · rw [if_pos hk, if_pos hk]
        have hsplit : newCoreOf r = newCore k := by
          have hsepr := hsep r (List.mem_cons_self _ _) hacc
          rw [newCoreOf, newCore, ← hk, keyOf,
            splitSongKey_makeSongKey _ _ hsepr]
        rcases hbase : (mapGet st.songMap k).map coreOfEntry with _ | c
        · simp only [Option.getD_none, hsplit]
          rw [if_neg (by simp)]
          conv_rhs => rw [bumpCore_cons]
        · simp only [Option.getD_some]
          conv_rhs => rw [bumpCore_cons]
      · rw [if_neg hk, if_neg hk]
    · have hacc2 : accepted tz r = false := by
        rw [Bool.eq_false_iff]
        exact hacc
      rw [(applyRecord_not_accepted tz st r hacc2).1]
      have hmatch : songMatch tz k (r :: rest) = songMatch tz k rest := by
        rw [songMatch, List.filter_cons, if_neg (by simp [hacc2]), songMatch]
      rw [hmatch]

theorem applyRecord_artistMap_acc (tz : ℤ) (st : AccState) (r : RawRecord)
    (t : ℤ) (hs : isSongRecord r = true) (hp : parseTimestamp tz r.ts = some t)
    (a : String) :
    mapGet (applyRecord tz st r).artistMap a =
      if artistOf r = a
      then some (bumpArtist ((mapGet st.artistMap a).getD ⟨a, 0, 0, 0⟩) [r])
      else mapGet st.artistMap a := by
  simp only [applyRecord, hs, hp]
  have hadef : cleanString r.master_metadata_album_artist_name = artistOf r := rfl
  simp only [Bool.not_true, if_neg (by simp : ¬(¬True)), hadef]
  by_cases ha : artistOf r = a
  · subst ha
    rw [if_pos rfl]
    rw [mapGet_mapSet_self]
    rcases hbase : mapGet st.artistMap (artistOf r) with _ | e <;>
      simp [bumpArtist, msOf, skipOf, List.countP_cons]
  · rw [if_neg ha, mapGet_mapSet_ne _ _ _ _ (Ne.symm ha)]

theorem artistMap_char (tz : ℤ) :
    ∀ (records : List RawRecord) (st : AccState) (a : String),
      mapGet (runPass tz st records).artistMap a =
        (match mapGet st.artistMap a with
         | some e => some (bumpArtist e (artistMatch tz a records))
         | none =>
           if artistMatch tz a records = [] then none
           else some (bumpArtist ⟨a, 0, 0, 0⟩ (artistMatch tz a records))) := by
  intro records
  induction records with
  | nil =>
    intro st a
    rw [runPass]
    rcases hbase : mapGet st.artistMap a with _ | e
    · simp [artistMatch, hbase]
    · simp [artistMatch, hbase, bumpArtist_nil]
  | cons r rest ih =>
    intro st a
    rw [runPass, ih (applyRecord tz st r) a]
    by_cases hacc : accepted tz r = true
    · have hs : isSongRecord r = true := by
        rw [accepted, Bool.and_eq_true] at hacc
        exact hacc.1
      obtain ⟨t, hp⟩ : ∃ t, parseTimestamp tz r.ts = some t := by
        rw [accepted, Bool.and_eq_true] at hacc
        exact Option.isSome_iff_exists.mp hacc.2
      rw [applyRecord_artistMap_acc tz st r t hs hp a]
      have hmatch : artistMatch tz a (r :: rest) =
          if artistOf r = a then r :: artistMatch tz a rest
          else artistMatch tz a rest := by
        rw [artistMatch, List.filter_cons]
        by_cases ha : artistOf r = a
        · rw [if_pos (by simp [hacc, ha]), if_pos ha, artistMatch]
        · rw [if_neg (by simp [ha]), if_neg ha, artistMatch]
      rw [hmatch]
      by_cases ha : artistOf r = a
      · rw [if_pos ha, if_pos ha]
        rcases hbase : mapGet st.artistMap a with _ | e
        · simp only [Option.getD_none]
          rw [if_neg (by simp)]
          conv_rhs => rw [bumpArtist_cons]
        · simp only [Option.getD_some]
          conv_rhs => rw [bumpArtist_cons]
      · rw [if_neg ha, if_neg ha]
    · have hacc2 : accepted tz r = false := by
        rw [Bool.eq_false_iff]
        exact hacc
      rw [(applyRecord_not_accepted tz st r hacc2).2.1]
      have hmatch : artistMatch tz a (r :: rest) = artistMatch tz a rest := by
        rw [artistMatch, List.filter_cons, if_neg (by simp [hacc2]), artistMatch]
      rw [hmatch]

theorem applyRecord_monthlyMs_acc (tz : ℤ) (st : AccState) (r : RawRecord)
    (t : ℤ) (hs : isSongRecord r = true) (hp : parseTimestamp tz r.ts = some t)
    (mk : String) :
    mapGet (applyRecord tz st r).monthlyMs mk =
      if monthOf tz r = mk
      then some ((mapGet st.monthlyMs mk).getD 0 + msOf r)
      else mapGet st.monthlyMs mk := by
  simp only [applyRecord, hs, hp]
  have hmdef : timestampToMonthKey t = monthOf tz r := by
    rw [monthOf, hp]
  simp only [Bool.not_true, if_neg (by simp : ¬(¬True)), hmdef]
  by_cases hm : monthOf tz r = mk
  · subst hm
    rw [if_pos rfl, mapGet_mapSet_self]
    rfl
  · rw [if_neg hm, mapGet_mapSet_ne _ _ _ _ (Ne.symm hm)]

theorem monthlyMs_char (tz : ℤ) :
    ∀ (records : List RawRecord) (st : AccState) (mk : String),
      mapGet (runPass tz st records).monthlyMs mk =
        (match mapGet st.monthlyMs mk with
         | some v => some (v + msSum (monthMatch tz mk records))
         | none =>
           if monthMatch tz mk records = [] then none
           else some (msSum (monthMatch tz mk records))) := by
  intro records
  induction records with
  | nil =>
    intro st mk
    rw [runPass]
    rcases hbase : mapGet st.monthlyMs mk with _ | v
    · simp [monthMatch, hbase]
    · simp [monthMatch, hbase, msSum]
  | cons r rest ih =>
    intro st mk
    rw [runPass, ih (applyRecord tz st r) mk]
    by_cases hacc : accepted tz r = true
    · have hs : isSongRecord r = true := by
        rw [accepted, Bool.and_eq_true] at hacc
        exact hacc.1
      obtain ⟨t, hp⟩ : ∃ t, parseTimestamp tz r.ts = some t := by
        rw [accepted, Bool.and_eq_true] at hacc
        exact Option.isSome_iff_exists.mp hacc.2
      rw [applyRecord_monthlyMs_acc tz st r t hs hp mk]
      have hmatch : monthMatch tz mk (r :: rest) =
          if monthOf tz r = mk then r :: monthMatch tz mk rest
          else monthMatch tz mk rest := by
        rw [monthMatch, List.filter_cons]
        by_cases hm : monthOf tz r = mk
        · rw [if_pos (by simp [hacc, hm]), if_pos hm, monthMatch]
        · rw [if_neg (by simp [hm]), if_neg hm, monthMatch]
      rw [hmatch]
      by_cases hm : monthOf tz r = mk
      · rw [if_pos hm, if_pos hm]
        rcases hbase : mapGet st.monthlyMs mk with _ | v
        · simp only [Option.getD_none]
          rw [if_neg (by simp)]
          simp only [msSum, List.map_cons, List.sum_cons]
          exact congrArg some (by omega)
        · simp only [Option.getD_some]
          simp only [msSum, List.map_cons, List.sum_cons]
          exact congrArg some (by omega)
      · rw [if_neg hm, if_neg hm]
    · have hacc2 : accepted tz r = false := by
        rw [Bool.eq_false_iff]
        exact hacc
      rw [(applyRecord_not_accepted tz st r hacc2).2.2.2.1]
      have hmatch : monthMatch tz mk (r :: rest) = monthMatch tz mk rest := by
        rw [monthMatch, List.filter_cons, if_neg (by simp [hacc2]), monthMatch]
      rw [hmatch]

theorem applyRecord_yearlyMs_acc (tz : ℤ) (st : AccState) (r : RawRecord)
    (t : ℤ) (hs : isSongRecord r = true) (hp : parseTimestamp tz r.ts = some t)
    (y : ℤ) :
    mapGet (applyRecord tz st r).yearlyMs y =
      if yearOf tz r = y
      then some ((mapGet st.yearlyMs y).getD 0 + msOf r)
      else mapGet st.yearlyMs y := by
  simp only [applyRecord, hs, hp]
  have hydef : getUTCFullYear t = yearOf tz r := by
    rw [yearOf, hp]
  simp only [Bool.not_true, if_neg (by simp : ¬(¬True)), hydef]
  by_cases hy : yearOf tz r = y
  · subst hy
    rw [if_pos rfl, mapGet_mapSet_self]
    rfl
  · rw [if_neg hy, mapGet_mapSet_ne _ _ _ _ (Ne.symm hy)]

theorem yearlyMs_char (tz : ℤ) :
    ∀ (records : List RawRecord) (st : AccState) (y : ℤ),
      mapGet (runPass tz st records).yearlyMs y =
        (match mapGet st.yearlyMs y with
         | some v => some (v + msSum (yearMatch tz y records))
         | none =>
           if yearMatch tz y records = [] then none
           else some (msSum (yearMatch tz y records))) := by
  intro records
  induction records with
  | nil =>
    intro st y
    rw [runPass]
    rcases hbase : mapGet st.yearlyMs y with _ | v
    · simp [yearMatch, hbase]
    · simp [yearMatch, hbase, msSum]
  | cons r rest ih =>
    intro st y
    rw [runPass, ih (applyRecord tz st r) y]
    by_cases hacc : accepted tz r = true
    · have hs : isSongRecord r = true := by
        rw [accepted, Bool.and_eq_true] at hacc
        exact hacc.1
      obtain ⟨t, hp⟩ : ∃ t, parseTimestamp tz r.ts = some t := by
        rw [accepted, Bool.and_eq_true] at hacc
        exact Option.isSome_iff_exists.mp hacc.2
      rw [applyRecord_yearlyMs_acc tz st r t hs hp y]
      have hmatch : yearMatch tz y (r :: rest) =
          if yearOf tz r = y then r :: yearMatch tz y rest
          else yearMatch tz y rest := by
        rw [yearMatch, List.filter_cons]
        by_cases hy : yearOf tz r = y
        · rw [if_pos (by simp [hacc, hy]), if_pos hy, yearMatch]
        · rw [if_neg (by simp [hy]), if_neg hy, yearMatch]
      rw [hmatch]
      by_cases hy : yearOf tz r = y
      · rw [if_pos hy, if_pos hy]
        rcases hbase : mapGet st.yearlyMs y with _ | v
        · simp only [Option.getD_none]
          rw [if_neg (by simp)]
          simp only [msSum, List.map_cons, List.sum_cons]
          exact congrArg some (by omega)
        · simp only [Option.getD_some]
          simp only [msSum, List.map_cons, List.sum_cons]
          exact congrArg some (by omega)
      · rw [if_neg hy, if_neg hy]
    · have hacc2 : accepted tz r = false := by
        rw [Bool.eq_false_iff]
        exact hacc
      rw [(applyRecord_not_accepted tz st r hacc2).2.2.2.2]
      have hmatch : yearMatch tz y (r :: rest) = yearMatch tz y rest := by
        rw [yearMatch, List.filter_cons, if_neg (by simp [hacc2]), yearMatch]
      rw [hmatch]

theorem applyRecord_monthSong_acc (tz : ℤ) (st : AccState) (r : RawRecord)
    (t : ℤ) (hs : isSongRecord r = true) (hp : parseTimestamp tz r.ts = some t)
    (mk k : String) :
    monthSongLookup (applyRecord tz st r) mk k =
      if monthOf tz r = mk then
        (if keyOf r = k
         then some (bumpMonthSong ((monthSongLookup st mk k).getD ⟨0, 0⟩) [r])
         else monthSongLookup st mk k)
      else monthSongLookup st mk k := by
  have hmdef : timestampToMonthKey t = monthOf tz r := by
    rw [monthOf, hp]
  have hkdef : makeSongKey (cleanString r.master_metadata_track_name)
      (cleanString r.master_metadata_album_artist_name) = keyOf r := rfl
  simp only [monthSongLookup, applyRecord, hs, hp, Bool.not_true,
    if_neg (by simp : ¬(¬True)), hmdef, hkdef]
  by_cases hm : monthOf tz r = mk
  · subst hm
    rw [if_pos rfl, mapGet_mapSet_self]
    simp only [Option.some_bind]
    by_cases hk : keyOf r = k
    · subst hk
      rw [if_pos rfl, mapGet_mapSet_self]
      rcases houter : mapGet st.monthlySongMap (monthOf tz r) with _ | ms
      · simp [mapGet, bumpMonthSong, msOf]
      · simp only [Option.getD_some, Option.some_bind]
        rcases hinner : mapGet ms (keyOf r) with _ | e <;>
          simp [hinner, bumpMonthSong, msOf]
    · rw [if_neg hk, mapGet_mapSet_ne _ _ _ _ (Ne.symm hk)]
      rcases houter : mapGet st.monthlySongMap (monthOf tz r) with _ | ms
      · simp [mapGet]
      · simp
  · rw [if_neg hm, mapGet_mapSet_ne _ _ _ _ (Ne.symm hm)]

theorem monthSong_char (tz : ℤ) :
    ∀ (records : List RawRecord) (st : AccState) (mk k : String),
      monthSongLookup (runPass tz st records) mk k =
        (match monthSongLookup st mk k with
         | some e => some (bumpMonthSong e (monthSongMatch tz mk k records))
         | none =>
           if monthSongMatch tz mk k records = [] then none
           else some (bumpMonthSong ⟨0, 0⟩ (monthSongMatch tz mk k records))) := by
  intro records
  induction records with
  | nil =>
    intro st mk k
    rw [runPass]
    rcases hbase : monthSongLookup st mk k with _ | e
    · simp [monthSongMatch, hbase]
    · simp [monthSongMatch, hbase, bumpMonthSong_nil]
  | cons r rest ih =>
    intro st mk k
    rw [runPass, ih (applyRecord tz st r) mk k]
    by_cases hacc : accepted tz r = true
    · have hs : isSongRecord r = true := by
        rw [accepted, Bool.and_eq_true] at hacc
        exact hacc.1
      obtain ⟨t, hp⟩ : ∃ t, parseTimestamp tz r.ts = some t := by
        rw [accepted, Bool.and_eq_true] at hacc
        exact Option.isSome_iff_exists.mp hacc.2
      rw [applyRecord_monthSong_acc tz st r t hs hp mk k]
      have hmatch : monthSongMatch tz mk k (r :: rest) =
          if monthOf tz r = mk ∧ keyOf r = k
          then r :: monthSongMatch tz mk k rest
          else monthSongMatch tz mk k rest := by
        rw [monthSongMatch, List.filter_cons]
        by_cases hmk : monthOf tz r = mk ∧ keyOf r = k
        · rw [if_pos (by simp [hacc, hmk.1, hmk.2]), if_pos hmk]
          rfl
        · have hcond : (accepted tz r && decide (monthOf tz r = mk) &&
              decide (keyOf r = k)) = false := by
            rcases not_and_or.mp hmk with h | h <;> simp [h]
          rw [if_neg (by simp [hcond]), if_neg hmk]
          rfl
      by_cases hm : monthOf tz r = mk
      · by_cases hk : keyOf r = k
        · have hcond : monthOf tz r = mk ∧ keyOf r = k := ⟨hm, hk⟩
          have hmatch2 : monthSongMatch tz mk k (r :: rest) =
              r :: monthSongMatch tz mk k rest := by
            rw [hmatch, if_pos hcond]
          rw [hmatch2, if_pos hm, if_pos hk]
          rcases hbase : monthSongLookup st mk k with _ | e
          · simp only [Option.getD_none]
            rw [if_neg (by simp)]
            conv_rhs => rw [bumpMonthSong_cons]
          · simp only [Option.getD_some]
            conv_rhs => rw [bumpMonthSong_cons]
        · have hmatch2 : monthSongMatch tz mk k (r :: rest) =
              monthSongMatch tz mk k rest := by
            rw [hmatch, if_neg (fun hc => hk hc.2)]
          rw [hmatch2, if_pos hm, if_neg hk]
      · have hmatch2 : monthSongMatch tz mk k (r :: rest) =
            monthSongMatch tz mk k rest := by
          rw [hmatch, if_neg (fun hc => hm hc.1)]
        rw [hmatch2, if_neg hm]
    · have hacc2 : accepted tz r = false := by
        rw [Bool.eq_false_iff]
        exact hacc
      have hmaps := applyRecord_not_accepted tz st r hacc2
      have hlook : monthSongLookup (applyRecord tz st r) mk k =
          monthSongLookup st mk k := by
        rw [monthSongLookup, hmaps.2.2.1, monthSongLookup]
      rw [hlook]
      have hmatch : monthSongMatch tz mk k (r :: rest) =
          monthSongMatch tz mk k rest := by
        rw [monthSongMatch, List.filter_cons, if_neg (by simp [hacc2]),
          monthSongMatch]
      rw [hmatch]

/-- The shape of the state update for an accepted record: every table
is a `mapSet` at the record's key. -/
theorem applyRecord_acc_shape (tz : ℤ) (st : AccState) (r : RawRecord)
    (t : ℤ) (hs : isSongRecord r = true)
    (hp : parseTimestamp tz r.ts = some t) :
    ∃ e a w mv yv,
      (applyRecord tz st r).songMap = mapSet st.songMap (keyOf r) e ∧
      (applyRecord tz st r).artistMap = mapSet st.artistMap (artistOf r) a ∧
      (applyRecord tz st r).monthlySongMap =
        mapSet st.monthlySongMap (monthOf tz r)
          (mapSet ((mapGet st.monthlySongMap (monthOf tz r)).getD [])
            (keyOf r) w) ∧
      (applyRecord tz st r).monthlyMs = mapSet st.monthlyMs (monthOf tz r) mv ∧
      (applyRecord tz st r).yearlyMs = mapSet st.yearlyMs (yearOf tz r) yv := by
  have hmdef : timestampToMonthKey t = monthOf tz r := by
    rw [monthOf, hp]
  have hydef : getUTCFullYear t = yearOf tz r := by
    rw [yearOf, hp]
  have hkdef : makeSongKey (cleanString r.master_metadata_track_name)
      (cleanString r.master_metadata_album_artist_name) = keyOf r := rfl
  have hadef : cleanString r.master_metadata_album_artist_name = artistOf r := rfl
  simp only [applyRecord, hs, hp, Bool.not_true,
    if_neg (by simp : ¬(¬True)), hmdef, hydef, hkdef, hadef]
  exact ⟨_, _, _, _, _, rfl, rfl, rfl, rfl, rfl⟩

/-- A month key is present after the pass iff it was present before or
some accepted record falls in that month. -/
theorem monthlySongMap_key_char (tz : ℤ) :
    ∀ (records : List RawRecord) (st : AccState) (mk : String),
      (mapGet (runPass tz st records).monthlySongMap mk ≠ none) ↔
        (mapGet st.monthlySongMap mk ≠ none ∨ monthMatch tz mk records ≠ []) := by
  intro records
  induction records with
  | nil =>
    intro st mk
    rw [runPass]
    simp [monthMatch]
  | cons r rest ih =>
    intro st mk
    rw [runPass, ih (applyRecord tz st r) mk]
    by_cases hacc : accepted tz r = true
    · have hs : isSongRecord r = true := by
        rw [accepted, Bool.and_eq_true] at hacc
        exact hacc.1
      obtain ⟨t, hp⟩ : ∃ t, parseTimestamp tz r.ts = some t := by
        rw [accepted, Bool.and_eq_true] at hacc
        exact Option.isSome_iff_exists.mp hacc.2
      obtain ⟨e, a, w, mv, yv, -, -, hmonthly, -, -⟩ :=
        applyRecord_acc_shape tz st r t hs hp
      rw [hmonthly]
      have hmatch : monthMatch tz mk (r :: rest) =
          if monthOf tz r = mk then r :: monthMatch tz mk rest
          else monthMatch tz mk rest := by
        rw [monthMatch, List.filter_cons]
        by_cases hm : monthOf tz r = mk
        · rw [if_pos (by simp [hacc, hm]), if_pos hm]
          rfl
        · rw [if_neg (by simp [hm]), if_neg hm]
          rfl
      rw [hmatch]
      by_cases hm : monthOf tz r = mk
      · subst hm
        rw [mapGet_mapSet_self, if_pos rfl]
        simp
      · rw [mapGet_mapSet_ne _ _ _ _ (Ne.symm hm), if_neg hm]
    · have hacc2 : accepted tz r = false := by
        rw [Bool.eq_false_iff]
        exact hacc
      rw [(applyRecord_not_accepted tz st r hacc2).2.2.1]
      have hmatch : monthMatch tz mk (r :: rest) = monthMatch tz mk rest := by
        rw [monthMatch, List.filter_cons, if_neg (by simp [hacc2]), monthMatch]
      rw [hmatch]

theorem runPass_invariants (tz : ℤ) :
    ∀ (records : List RawRecord) (st : AccState),
      (∀ r ∈ records, accepted tz r = true →
        KEY_SEP ∉ (cleanString r.master_metadata_track_name).toList) →
      (mapKeys st.songMap).Nodup →
      (∀ k ∈ mapKeys st.songMap, keyRoundtrip k) →
      (mapKeys st.artistMap).Nodup →
      (mapKeys st.monthlySongMap).Nodup →
      (∀ p ∈ st.monthlySongMap,
        (mapKeys p.2).Nodup ∧ ∀ k ∈ mapKeys p.2, keyRoundtrip k) →
      (mapKeys st.monthlyMs).Nodup →
      (mapKeys st.yearlyMs).Nodup →
      ((mapKeys (runPass tz st records).songMap).Nodup ∧
       (∀ k ∈ mapKeys (runPass tz st records).songMap, keyRoundtrip k) ∧
       (mapKeys (runPass tz st records).artistMap).Nodup ∧
       (mapKeys (runPass tz st records).monthlySongMap).Nodup ∧
       (∀ p ∈ (runPass tz st records).monthlySongMap,
         (mapKeys p.2).Nodup ∧ ∀ k ∈ mapKeys p.2, keyRoundtrip k) ∧
       (mapKeys (runPass tz st records).monthlyMs).Nodup ∧
       (mapKeys (runPass tz st records).yearlyMs).Nodup) := by
  intro records
  induction records with
  | nil =>
    intro st _ h1 h2 h3 h4 h5 h6 h7
    rw [runPass]
    exact ⟨h1, h2, h3, h4, h5, h6, h7⟩
  | cons r rest ih =>
    intro st hsep h1 h2 h3 h4 h5 h6 h7
    have hsep2 : ∀ x ∈ rest, accepted tz x = true →
        KEY_SEP ∉ (cleanString x.master_metadata_track_name).toList :=
      fun x hx => hsep x (List.mem_cons_of_mem _ hx)
    rw [runPass]
    by_cases hacc : accepted tz r = true
    · have hs : isSongRecord r = true := by
        rw [accepted, Bool.and_eq_true] at hacc
        exact hacc.1
      obtain ⟨t, hp⟩ : ∃ t, parseTimestamp tz r.ts = some t := by
        rw [accepted, Bool.and_eq_true] at hacc
        exact Option.isSome_iff_exists.mp hacc.2
      obtain ⟨e, a, w, mv, yv, hsm, ham, hmm, hms, hys⟩ :=
        applyRecord_acc_shape tz st r t hs hp
      have hrt : keyRoundtrip (keyOf r) := by
        rw [keyRoundtrip, keyOf,
          splitSongKey_makeSongKey _ _ (hsep r (List.mem_cons_self _ _) hacc)]
      refine ih (applyRecord tz st r) hsep2 ?_ ?_ ?_ ?_ ?_ ?_ ?_
      · rw [hsm]
        exact nodup_mapKeys_mapSet _ _ _ h1
      · rw [hsm, mapKeys_mapSet]
        split_ifs with hmem
        · exact h2
        · intro k hk
          rcases List.mem_append.mp hk with hk | hk
          · exact h2 k hk
          · rw [List.mem_singleton] at hk
            exact hk ▸ hrt
      · rw [ham]
        exact nodup_mapKeys_mapSet _ _ _ h3
      · rw [hmm]
        exact nodup_mapKeys_mapSet _ _ _ h4
      · rw [hmm]
        intro p hp2
        rcases (mem_mapSet_iff _ _ p _ h4).mp hp2 with hp2 | ⟨hp2, -⟩
        · subst hp2
          have hinner : (mapKeys ((mapGet st.monthlySongMap
              (monthOf tz r)).getD [])).Nodup ∧
              ∀ k ∈ mapKeys ((mapGet st.monthlySongMap
                  (monthOf tz r)).getD []), keyRoundtrip k := by
            rcases houter : mapGet st.monthlySongMap (monthOf tz r) with _ | ms
            · simp [mapKeys]
            · simp only [Option.getD_some]
              exact h5 (monthOf tz r, ms) (mem_of_mapGet_eq_some houter)
          constructor
          · exact nodup_mapKeys_mapSet _ _ _ hinner.1
          · rw [mapKeys_mapSet]
            split_ifs with hmem
            · exact hinner.2
            · intro k hk
              rcases List.mem_append.mp hk with hk | hk
              · exact hinner.2 k hk
              · rw [List.mem_singleton] at hk
                exact hk ▸ hrt
        · exact h5 p hp2
      · rw [hms]
        exact nodup_mapKeys_mapSet _ _ _ h6
      · rw [hys]
        exact nodup_mapKeys_mapSet _ _ _ h7
    · have hacc2 : accepted tz r = false := by
        rw [Bool.eq_false_iff]
        exact hacc
      obtain ⟨e1, e2, e3, e4, e5⟩ := applyRecord_not_accepted tz st r hacc2
      refine ih (applyRecord tz st r) hsep2 ?_ ?_ ?_ ?_ ?_ ?_ ?_ <;>
        simp only [e1, e2, e3, e4, e5] <;> assumption

theorem stripRow_songRowOf (e : SongEntry) :
    stripRow (songRowOf e) = coreRowOf (coreOfEntry e) := rfl

theorem compareSongsByPlayCount_strip (a b : SongRow) :
    compareSongsByPlayCount a b = compareCoreByPlayCount (stripRow a) (stripRow b) :=
  rfl

theorem compareSongsByListenTime_strip (a b : SongRow) :
    compareSongsByListenTime a b =
      compareCoreByListenTime (stripRow a) (stripRow b) :=
  rfl

theorem compareSongsBySkipCount_strip (a b : SongRow) :
    compareSongsBySkipCount a b = compareCoreBySkipCount (stripRow a) (stripRow b) :=
  rfl

theorem compareCoreByPlayCount_le_iff (a b : SongRowCore) :
    compareCoreByPlayCount a b ≤ 0 ↔ coreKeyPC a ≤ coreKeyPC b := by
  unfold compareCoreByPlayCount coreKeyPC
  simp only [orInt_le_zero_iff, subCast_neg_iff, subCast_zero_iff,
    jsStrCmp_lt_zero_iff, jsStrCmp_eq_zero_iff, jsStrCmp_le_zero_iff,
    Prod.Lex.le_iff, negCast_lt_iff, negCast_eq_iff]

theorem compareCoreByListenTime_le_iff (a b : SongRowCore) :
    compareCoreByListenTime a b ≤ 0 ↔ coreKeyTime a ≤ coreKeyTime b := by
  unfold compareCoreByListenTime coreKeyTime
  simp only [orInt_le_zero_iff, subCast_neg_iff, subCast_zero_iff,
    jsStrCmp_lt_zero_iff, jsStrCmp_eq_zero_iff, jsStrCmp_le_zero_iff,
    Prod.Lex.le_iff, negCast_lt_iff, negCast_eq_iff]

theorem compareCoreBySkipCount_le_iff (a b : SongRowCore) :
    compareCoreBySkipCount a b ≤ 0 ↔ coreKeySkip a ≤ coreKeySkip b := by
  unfold compareCoreBySkipCount coreKeySkip
  simp only [orInt_le_zero_iff, subCast_neg_iff, subCast_zero_iff,
    jsStrCmp_lt_zero_iff, jsStrCmp_eq_zero_iff, jsStrCmp_le_zero_iff,
    Prod.Lex.le_iff, negCast_lt_iff, negCast_eq_iff]

theorem compareMonthlySongRank_le_iff (a b : String × MonthSongEntry) :
    compareMonthlySongRank a b ≤ 0 ↔ monthlyRankKey a ≤ monthlyRankKey b := by
  unfold compareMonthlySongRank monthlyRankKey
  simp only [orInt_le_zero_iff, subCast_neg_iff, subCast_zero_iff,
    jsStrCmp_lt_zero_iff, jsStrCmp_eq_zero_iff, jsStrCmp_le_zero_iff,
    Prod.Lex.le_iff, negCast_lt_iff, negCast_eq_iff]

theorem compareArtistsByTime_le_iff (a b : ArtistRow) :
    compareArtistsByTime a b ≤ 0 ↔ artistRowKey a ≤ artistRowKey b := by
  unfold compareArtistsByTime artistRowKey
  simp only [orInt_le_zero_iff, subCast_neg_iff, subCast_zero_iff,
    jsStrCmp_lt_zero_iff, jsStrCmp_eq_zero_iff, jsStrCmp_le_zero_iff,
    Prod.Lex.le_iff, negCast_lt_iff, negCast_eq_iff]

/-- Sorting two permuted lists with a comparator that is realised by a
linear-order key gives equal outputs, provided members are determined
by their keys. -/
theorem jsSort_eq_of_perm {γ : Type v} [LinearOrder γ] (cmp : α → α → ℤ)
    (key : α → γ) (hkey : ∀ x y, cmp x y ≤ 0 ↔ key x ≤ key y)
    (l1 l2 : List α) (hperm : l1.Perm l2)
    (hdet : ∀ x ∈ l1, ∀ y ∈ l2, key x = key y → x = y) :
    jsSort cmp l1 = jsSort cmp l2 := by
  haveI htr : IsTrans α (fun a b => cmp a b ≤ 0) := by
    constructor
    intro a b c h1 h2
    rw [hkey] at h1 h2 ⊢
    exact le_trans h1 h2
  haveI hto : IsTotal α (fun a b => cmp a b ≤ 0) := by
    constructor
    intro a b
    rw [hkey, hkey]
    exact le_total _ _
  have hs1 : List.Sorted (fun a b => cmp a b ≤ 0) (jsSort cmp l1) :=
    List.sorted_insertionSort _ _
  have hs2 : List.Sorted (fun a b => cmp a b ≤ 0) (jsSort cmp l2) :=
    List.sorted_insertionSort _ _
  have hp : (jsSort cmp l1).Perm (jsSort cmp l2) :=
    ((List.perm_insertionSort _ l1).trans hperm).trans
      (List.perm_insertionSort _ l2).symm
  refine sorted_perm_unique _ _ hp hs1 hs2 ?_
  intro x hx y hy hxy hyx
  rw [hkey] at hxy hyx
  exact hdet x ((List.perm_insertionSort _ l1).mem_iff.mp hx)
    y ((List.perm_insertionSort _ l2).mem_iff.mp hy)
    (le_antisymm hxy hyx)

/-- Sorting two lists whose strip-projections are permuted, with a
comparator that factors through the projection and is realised by a
linear-order key, gives equal projected outputs. -/
theorem jsSort_strip_eq {β : Type u} {γ : Type v} [LinearOrder γ]
    (cmp : α → α → ℤ) (cmpc : β → β → ℤ) (strip : α → β) (key : β → γ)
    (hstrip : ∀ a b, cmp a b = cmpc (strip a) (strip b))
    (hkey : ∀ x y, cmpc x y ≤ 0 ↔ key x ≤ key y)
    (l1 l2 : List α) (hperm : (l1.map strip).Perm (l2.map strip))
    (hdet : ∀ x ∈ l1.map strip, ∀ y ∈ l2.map strip, key x = key y → x = y) :
    (jsSort cmp l1).map strip = (jsSort cmp l2).map strip := by
  haveI htr : IsTrans α (fun a b => cmp a b ≤ 0) := by
    constructor
    intro a b c h1 h2
    rw [hstrip] at h1 h2 ⊢
    rw [hkey] at h1 h2 ⊢
    exact le_trans h1 h2
  haveI hto : IsTotal α (fun a b => cmp a b ≤ 0) := by
    constructor
    intro a b
    rw [hstrip, hstrip, hkey, hkey]
    exact le_total _ _
  have hs1 : List.Sorted (fun x y : β => cmpc x y ≤ 0)
      ((jsSort cmp l1).map strip) := by
    rw [List.Sorted, List.pairwise_map]
    have := List.sorted_insertionSort (fun a b => cmp a b ≤ 0) l1
    rw [List.Sorted] at this
    exact this.imp (fun {a b} h => by rwa [hstrip] at h)
  have hs2 : List.Sorted (fun x y : β => cmpc x y ≤ 0)
      ((jsSort cmp l2).map strip) := by
    rw [List.Sorted, List.pairwise_map]
    have := List.sorted_insertionSort (fun a b => cmp a b ≤ 0) l2
    rw [List.Sorted] at this
    exact this.imp (fun {a b} h => by rwa [hstrip] at h)
  have hp : ((jsSort cmp l1).map strip).Perm ((jsSort cmp l2).map strip) := by
    refine (((List.perm_insertionSort _ l1).map strip).trans hperm).trans ?_
    exact ((List.perm_insertionSort _ l2).map strip).symm
  refine sorted_perm_unique _ _ hp hs1 hs2 ?_
  intro x hx y hy hxy hyx
  rw [hkey] at hxy hyx
  have hx2 : x ∈ l1.map strip :=
    (((List.perm_insertionSort _ l1).map strip).mem_iff).mp hx
  have hy2 : y ∈ l2.map strip :=
    (((List.perm_insertionSort _ l2).map strip).mem_iff).mp hy
  exact hdet x hx2 y hy2 (le_antisymm hxy hyx)

theorem bumpCore_perm (c : SongCore) {m1 m2 : List RawRecord}
    (h : m1.Perm m2) : bumpCore c m1 = bumpCore c m2 := by
  rw [bumpCore, bumpCore, h.length_eq, h.countP_eq skipOf, (h.map msOf).sum_eq]

theorem bumpArtist_perm (e : ArtistEntry) {m1 m2 : List RawRecord}
    (h : m1.Perm m2) : bumpArtist e m1 = bumpArtist e m2 := by
  rw [bumpArtist, bumpArtist, h.length_eq, h.countP_eq skipOf,
    (h.map msOf).sum_eq]

theorem bumpMonthSong_perm (e : MonthSongEntry) {m1 m2 : List RawRecord}
    (h : m1.Perm m2) : bumpMonthSong e m1 = bumpMonthSong e m2 := by
  rw [bumpMonthSong, bumpMonthSong, h.length_eq, (h.map msOf).sum_eq]

theorem msSum_perm {m1 m2 : List RawRecord} (h : m1.Perm m2) :
    msSum m1 = msSum m2 :=
  (h.map msOf).sum_eq

theorem match_ne_nil_iff {m1 m2 : List RawRecord} (h : m1.Perm m2) :
    m1 = [] ↔ m2 = [] := by
  constructor
  · intro e
    rw [e] at h
    exact h.symm.eq_nil
  · intro e
    rw [e] at h
    exact h.eq_nil

theorem runPass_songMap_perm (tz : ℤ) {records1 records2 : List RawRecord}
    (hperm : records1.Perm records2)
    (hsep : ∀ r ∈ records1, accepted tz r = true →
      KEY_SEP ∉ (cleanString r.master_metadata_track_name).toList)
    (k : String) :
    (mapGet (runPass tz initState records1).songMap k).map coreOfEntry =
      (mapGet (runPass tz initState records2).songMap k).map coreOfEntry := by
  have hsep2 : ∀ r ∈ records2, accepted tz r = true →
      KEY_SEP ∉ (cleanString r.master_metadata_track_name).toList :=
    fun r hr => hsep r (hperm.mem_iff.mpr hr)
  rw [songMap_core_char tz records1 initState k hsep,
    songMap_core_char tz records2 initState k hsep2]
  show (if songMatch tz k records1 = [] then none
        else some (bumpCore (newCore k) (songMatch tz k records1))) =
      (if songMatch tz k records2 = [] then none
        else some (bumpCore (newCore k) (songMatch tz k records2)))
  have hm : (songMatch tz k records1).Perm (songMatch tz k records2) :=
    hperm.filter _
  by_cases h1 : songMatch tz k records1 = []
  · rw [if_pos h1, if_pos ((match_ne_nil_iff hm).mp h1)]
  · rw [if_neg h1, if_neg (fun h2 => h1 ((match_ne_nil_iff hm).mpr h2)),
      bumpCore_perm _ hm]

theorem runPass_artistMap_perm (tz : ℤ) {records1 records2 : List RawRecord}
    (hperm : records1.Perm records2) (a : String) :
    mapGet (runPass tz initState records1).artistMap a =
      mapGet (runPass tz initState records2).artistMap a := by
  rw [artistMap_char tz records1 initState a,
    artistMap_char tz records2 initState a]
  show (if artistMatch tz a records1 = [] then none
        else some (bumpArtist ⟨a, 0, 0, 0⟩ (artistMatch tz a records1))) =
      (if artistMatch tz a records2 = [] then none
        else some (bumpArtist ⟨a, 0, 0, 0⟩ (artistMatch tz a records2)))
  have hm : (artistMatch tz a records1).Perm (artistMatch tz a records2) :=
    hperm.filter _
  by_cases h1 : artistMatch tz a records1 = []
  · rw [if_pos h1, if_pos ((match_ne_nil_iff hm).mp h1)]
  · rw [if_neg h1, if_neg (fun h2 => h1 ((match_ne_nil_iff hm).mpr h2)),
      bumpArtist_perm _ hm]

theorem runPass_monthlyMs_perm (tz : ℤ) {records1 records2 : List RawRecord}
    (hperm : records1.Perm records2) (mk : String) :
    mapGet (runPass tz initState records1).monthlyMs mk =
      mapGet (runPass tz initState records2).monthlyMs mk := by
  rw [monthlyMs_char tz records1 initState mk,
    monthlyMs_char tz records2 initState mk]
  show (if monthMatch tz mk records1 = [] then none
        else some (msSum (monthMatch tz mk records1))) =
      (if monthMatch tz mk records2 = [] then none
        else some (msSum (monthMatch tz mk records2)))
  have hm : (monthMatch tz mk records1).Perm (monthMatch tz mk records2) :=
    hperm.filter _
  by_cases h1 : monthMatch tz mk records1 = []
  · rw [if_pos h1, if_pos ((match_ne_nil_iff hm).mp h1)]
  · rw [if_neg h1, if_neg (fun h2 => h1 ((match_ne_nil_iff hm).mpr h2)),
      msSum_perm hm]

theorem runPass_yearlyMs_perm (tz : ℤ) {records1 records2 : List RawRecord}
    (hperm : records1.Perm records2) (y : ℤ) :
    mapGet (runPass tz initState records1).yearlyMs y =
      mapGet (runPass tz initState records2).yearlyMs y := by
  rw [yearlyMs_char tz records1 initState y,
    yearlyMs_char tz records2 initState y]
  show (if yearMatch tz y records1 = [] then none
        else some (msSum (yearMatch tz y records1))) =
      (if yearMatch tz y records2 = [] then none
        else some (msSum (yearMatch tz y records2)))
  have hm : (yearMatch tz y records1).Perm (yearMatch tz y records2) :=
    hperm.filter _
  by_cases h1 : yearMatch tz y records1 = []
  · rw [if_pos h1, if_pos ((match_ne_nil_iff hm).mp h1)]
  · rw [if_neg h1, if_neg (fun h2 => h1 ((match_ne_nil_iff hm).mpr h2)),
      msSum_perm hm]

theorem runPass_monthSong_perm (tz : ℤ) {records1 records2 : List RawRecord}
    (hperm : records1.Perm records2) (mk k : String) :
    monthSongLookup (runPass tz initState records1) mk k =
      monthSongLookup (runPass tz initState records2) mk k := by
  rw [monthSong_char tz records1 initState mk k,
    monthSong_char tz records2 initState mk k]
  show (if monthSongMatch tz mk k records1 = [] then none
        else some (bumpMonthSong ⟨0, 0⟩ (monthSongMatch tz mk k records1))) =
      (if monthSongMatch tz mk k records2 = [] then none
        else some (bumpMonthSong ⟨0, 0⟩ (monthSongMatch tz mk k records2)))
  have hm : (monthSongMatch tz mk k records1).Perm
      (monthSongMatch tz mk k records2) :=
    hperm.filter _
  by_cases h1 : monthSongMatch tz mk k records1 = []
  · rw [if_pos h1, if_pos ((match_ne_nil_iff hm).mp h1)]
  · rw [if_neg h1, if_neg (fun h2 => h1 ((match_ne_nil_iff hm).mpr h2)),
      bumpMonthSong_perm _ hm]

theorem runPass_monthKeys_perm (tz : ℤ) {records1 records2 : List RawRecord}
    (hperm : records1.Perm records2) (mk : String) :
    (mapGet (runPass tz initState records1).monthlySongMap mk = none) ↔
      (mapGet (runPass tz initState records2).monthlySongMap mk = none) := by
  have h1 := monthlySongMap_key_char tz records1 initState mk
  have h2 := monthlySongMap_key_char tz records2 initState mk
  have e0 : mapGet initState.monthlySongMap mk =
      (none : Option (List (String × MonthSongEntry))) := rfl
  rw [e0] at h1 h2
  simp only [ne_eq, not_true_eq_false, false_or] at h1 h2
  have hm : (monthMatch tz mk records1).Perm (monthMatch tz mk records2) :=
    hperm.filter _
  have hiff : ¬ (mapGet (runPass tz initState records1).monthlySongMap mk =
      none) ↔ ¬ (mapGet (runPass tz initState records2).monthlySongMap mk =
      none) := by
    rw [h1, h2]
    exact not_iff_not.mpr (match_ne_nil_iff hm)
  exact not_iff_not.mp hiff

theorem mapKeys_perm_of_get {κ : Type u} {ν : Type v} [DecidableEq κ]
    {m1 m2 : List (κ × ν)} (h1 : (mapKeys m1).Nodup) (h2 : (mapKeys m2).Nodup)
    (h : ∀ k, mapGet m1 k = none ↔ mapGet m2 k = none) :
    (mapKeys m1).Perm (mapKeys m2) := by
  rw [List.perm_ext_iff_of_nodup h1 h2]
  intro k
  exact not_iff_not.mp
    (((mapGet_eq_none_iff m1 k).symm.trans (h k)).trans
      (mapGet_eq_none_iff m2 k))

theorem assoc_perm_of_get {κ : Type u} {ν : Type v}
    {m1 m2 : List (κ × ν)} {F : κ → ν}
    (hv1 : ∀ p ∈ m1, p.2 = F p.1) (hv2 : ∀ p ∈ m2, p.2 = F p.1)
    (hk : (mapKeys m1).Perm (mapKeys m2)) : m1.Perm m2 := by
  rw [assoc_eq_keys_map m1 hv1, assoc_eq_keys_map m2 hv2]
  exact hk.map _

theorem coreAt_fields (tz : ℤ) (records : List RawRecord)
    (hsep : ∀ r ∈ records, accepted tz r = true →
      KEY_SEP ∉ (cleanString r.master_metadata_track_name).toList)
    (k : String) (hk : k ∈ mapKeys (runPass tz initState records).songMap) :
    (coreAt (runPass tz initState records) k).song = (splitSongKey k).1 ∧
    (coreAt (runPass tz initState records) k).artist = (splitSongKey k).2 := by
  have hchar2 : (mapGet (runPass tz initState records).songMap k).map
      coreOfEntry =
      (if songMatch tz k records = [] then none
       else some (bumpCore (newCore k) (songMatch tz k records))) :=
    songMap_core_char tz records initState k hsep
  rcases hg : mapGet (runPass tz initState records).songMap k with _ | e
  · exact absurd hk ((mapGet_eq_none_iff _ _).mp hg)
  · rw [hg] at hchar2
    by_cases hmatch : songMatch tz k records = []
    · rw [if_pos hmatch] at hchar2
      exact absurd hchar2 (by simp)
    · rw [if_neg hmatch] at hchar2
      have he := Option.some.inj hchar2
      have hc : coreAt (runPass tz initState records) k = coreOfEntry e := by
        unfold coreAt
        rw [hg]
        rfl
      rw [hc, he]
      exact ⟨rfl, rfl⟩

theorem artistAt_artist (tz : ℤ) (records : List RawRecord) (a : String) :
    (artistAt (runPass tz initState records) a).artist = a := by
  have hchar2 : mapGet (runPass tz initState records).artistMap a =
      (if artistMatch tz a records = [] then none
       else some (bumpArtist ⟨a, 0, 0, 0⟩ (artistMatch tz a records))) :=
    artistMap_char tz records initState a
  rcases hg : mapGet (runPass tz initState records).artistMap a with _ | e
  · unfold artistAt
    rw [hg]
    rfl
  · rw [hg] at hchar2
    by_cases hmatch : artistMatch tz a records = []
    · rw [if_pos hmatch] at hchar2
      exact absurd hchar2 (by simp)
    · rw [if_neg hmatch] at hchar2
      have he := Option.some.inj hchar2
      unfold artistAt
      rw [hg, Option.getD_some, he]
      rfl

theorem coreKeyPC_fields {x y : SongRowCore}
    (h : coreKeyPC x = coreKeyPC y) :
    x.artist = y.artist ∧ x.song = y.song := by
  simp only [coreKeyPC, toLex_inj, Prod.mk.injEq] at h
  exact ⟨h.2.2.2.1, h.2.2.2.2⟩

theorem coreKeyTime_fields {x y : SongRowCore}
    (h : coreKeyTime x = coreKeyTime y) :
    x.artist = y.artist ∧ x.song = y.song := by
  simp only [coreKeyTime, toLex_inj, Prod.mk.injEq] at h
  exact ⟨h.2.2.1, h.2.2.2⟩

theorem coreKeySkip_fields {x y : SongRowCore}
    (h : coreKeySkip x = coreKeySkip y) :
    x.artist = y.artist ∧ x.song = y.song := by
  simp only [coreKeySkip, toLex_inj, Prod.mk.injEq] at h
  exact ⟨h.2.2.1, h.2.2.2⟩

theorem monthlyRankKey_fields {x y : String × MonthSongEntry}
    (h : monthlyRankKey x = monthlyRankKey y) :
    (splitSongKey x.1).1 = (splitSongKey y.1).1 ∧
    (splitSongKey x.1).2 = (splitSongKey y.1).2 := by
  simp only [monthlyRankKey, toLex_inj, Prod.mk.injEq] at h
  exact ⟨h.2.2.2, h.2.2.1⟩

theorem artistRowKey_fields {x y : ArtistRow}
    (h : artistRowKey x = artistRowKey y) : x.artist = y.artist := by
  simp only [artistRowKey, toLex_inj, Prod.mk.injEq] at h
  exact h.2.2

theorem foldl_totalMs :
    ∀ (l : List SongRow) (n : ℕ),
      l.foldl (fun sum row => sum + row.totalMs) n =
        n + ((l.map stripRow).map (fun c => c.totalMs)).sum
  | [], n => by simp
  | r :: rest, n => by
    rw [List.foldl_cons, foldl_totalMs rest (n + r.totalMs)]
    simp only [List.map_cons, List.sum_cons]
    have hs : (stripRow r).totalMs = r.totalMs := rfl
    rw [hs]
    omega

/-- **C9** (corrected).  Under the amendment that no record's cleaned
track name contains the key separator U+001F, building the report on any
permutation of the input yields identical provenance counters, totals,
time series, peaks, and rankings; the per-song rows agree except possibly
in the representative album/URI fields (`stripRow` drops exactly those
two fields).  Without the amendment the claim is false, because two
distinct `(song, artist)` pairs can collide on one composite key and the
stored song/artist text then depends on which record came first. -/
theorem buildReport_perm_invariance (tz : ℤ)
    (records1 records2 : List RawRecord) (hperm : records1.Perm records2)
    (hsep : ∀ r ∈ records1,
      KEY_SEP ∉ (cleanString r.master_metadata_track_name).toList) :
    (buildReport tz records1).totalRecordsRead =
      (buildReport tz records2).totalRecordsRead ∧
    (buildReport tz records1).songRecordsUsed =
      (buildReport tz records2).songRecordsUsed ∧
    (buildReport tz records1).ignoredNonSong =
      (buildReport tz records2).ignoredNonSong ∧
    (buildReport tz records1).ignoredBadTimestamp =
      (buildReport tz records2).ignoredBadTimestamp ∧
    (buildReport tz records1).uniqueSongs =
      (buildReport tz records2).uniqueSongs ∧
    (buildReport tz records1).totalSongMs =
      (buildReport tz records2).totalSongMs ∧
    (buildReport tz records1).totalMinutes =
      (buildReport tz records2).totalMinutes ∧
    (buildReport tz records1).totalHours =
      (buildReport tz records2).totalHours ∧
    (buildReport tz records1).peakMonth =
      (buildReport tz records2).peakMonth ∧
    (buildReport tz records1).peakYear =
      (buildReport tz records2).peakYear ∧
    (buildReport tz records1).dataRange =
      (buildReport tz records2).dataRange ∧
    (buildReport tz records1).songRows.map stripRow =
      (buildReport tz records2).songRows.map stripRow ∧
    (buildReport tz records1).top10ByPlayCount.map stripRow =
      (buildReport tz records2).top10ByPlayCount.map stripRow ∧
    (buildReport tz records1).top10ByTime.map stripRow =
      (buildReport tz records2).top10ByTime.map stripRow ∧
    (buildReport tz records1).top10Skipped.map stripRow =
      (buildReport tz records2).top10Skipped.map stripRow ∧
    (buildReport tz records1).top3PerMonthRows =
      (buildReport tz records2).top3PerMonthRows ∧
    (buildReport tz records1).monthlyMinutesRows =
      (buildReport tz records2).monthlyMinutesRows ∧
    (buildReport tz records1).yearlyMinutesRows =
      (buildReport tz records2).yearlyMinutesRows ∧
    (buildReport tz records1).topArtistsByMinutes =
      (buildReport tz records2).topArtistsByMinutes := by
  have hsep1 : ∀ r ∈ records1, accepted tz r = true →
      KEY_SEP ∉ (cleanString r.master_metadata_track_name).toList :=
    fun r hr _ => hsep r hr
  have hsep2 : ∀ r ∈ records2, accepted tz r = true →
      KEY_SEP ∉ (cleanString r.master_metadata_track_name).toList :=
    fun r hr _ => hsep r (hperm.mem_iff.mpr hr)
  obtain ⟨hnd1s, hrt1, hnd1a, hnd1m, hin1, hnd1mm, hnd1y⟩ :=
    runPass_invariants tz records1 initState hsep1
      (by simp [initState, mapKeys]) (by simp [initState, mapKeys])
      (by simp [initState, mapKeys]) (by simp [initState, mapKeys])
      (by simp [initState]) (by simp [initState, mapKeys])
      (by simp [initState, mapKeys])
  obtain ⟨hnd2s, hrt2, hnd2a, hnd2m, hin2, hnd2mm, hnd2y⟩ :=
    runPass_invariants tz records2 initState hsep2
      (by simp [initState, mapKeys]) (by simp [initState, mapKeys])
      (by simp [initState, mapKeys]) (by simp [initState, mapKeys])
      (by simp [initState]) (by simp [initState, mapKeys])
      (by simp [initState, mapKeys])
  set st1 := runPass tz initState records1 with hst1
  set st2 := runPass tz initState records2 with hst2
  have hsongF : ∀ k, (mapGet st1.songMap k).map coreOfEntry =
      (mapGet st2.songMap k).map coreOfEntry :=
    fun k => runPass_songMap_perm tz hperm hsep1 k
  have hartF : ∀ a, mapGet st1.artistMap a = mapGet st2.artistMap a :=
    fun a => runPass_artistMap_perm tz hperm a
  have hmmF : ∀ mk, mapGet st1.monthlyMs mk = mapGet st2.monthlyMs mk :=
    fun mk => runPass_monthlyMs_perm tz hperm mk
  have hyF : ∀ y, mapGet st1.yearlyMs y = mapGet st2.yearlyMs y :=
    fun y => runPass_yearlyMs_perm tz hperm y
  have hmsF : ∀ mk k, monthSongLookup st1 mk k = monthSongLookup st2 mk k :=
    fun mk k => runPass_monthSong_perm tz hperm mk k
  have hmkF : ∀ mk, (mapGet st1.monthlySongMap mk = none) ↔
      (mapGet st2.monthlySongMap mk = none) :=
    fun mk => runPass_monthKeys_perm tz hperm mk
  have hgetSong : ∀ k, (mapGet st1.songMap k = none) ↔
      (mapGet st2.songMap k = none) := by
    intro k
    have h := hsongF k
    rcases h1 : mapGet st1.songMap k with _ | v1 <;>
      rcases h2 : mapGet st2.songMap k with _ | v2 <;>
      simp_all
  have hkeysSong : (mapKeys st1.songMap).Perm (mapKeys st2.songMap) :=
    mapKeys_perm_of_get hnd1s hnd2s hgetSong
  have hkeysArtist : (mapKeys st1.artistMap).Perm (mapKeys st2.artistMap) :=
    mapKeys_perm_of_get hnd1a hnd2a (fun a => by rw [hartF a])
  have hkeysMM : (mapKeys st1.monthlyMs).Perm (mapKeys st2.monthlyMs) :=
    mapKeys_perm_of_get hnd1mm hnd2mm (fun mk => by rw [hmmF mk])
  have hkeysY : (mapKeys st1.yearlyMs).Perm (mapKeys st2.yearlyMs) :=
    mapKeys_perm_of_get hnd1y hnd2y (fun y => by rw [hyF y])
  have hkeysMonth : (mapKeys st1.monthlySongMap).Perm
      (mapKeys st2.monthlySongMap) :=
    mapKeys_perm_of_get hnd1m hnd2m hmkF
  have hcoreAt : ∀ k, coreAt st1 k = coreAt st2 k := by
    intro k
    unfold coreAt
    rw [hsongF k]
  have hsongVal1 : ∀ p ∈ st1.songMap, coreOfEntry p.2 = coreAt st1 p.1 := by
    intro p hp
    have hg : mapGet st1.songMap p.1 = some p.2 :=
      mapGet_eq_some_of_mem hnd1s (by rw [Prod.mk.eta]; exact hp)
    unfold coreAt
    rw [hg]
    rfl
  have hsongVal2 : ∀ p ∈ st2.songMap, coreOfEntry p.2 = coreAt st1 p.1 := by
    intro p hp
    have hg : mapGet st2.songMap p.1 = some p.2 :=
      mapGet_eq_some_of_mem hnd2s (by rw [Prod.mk.eta]; exact hp)
    rw [hcoreAt p.1]
    unfold coreAt
    rw [hg]
    rfl
  have hrows1 : ((mapValues st1.songMap).map songRowOf).map stripRow =
      (mapKeys st1.songMap).map (fun k => coreRowOf (coreAt st1 k)) := by
    simp only [mapValues, mapKeys, List.map_map]
    refine List.map_congr_left ?_
    intro p hp
    show stripRow (songRowOf p.2) = coreRowOf (coreAt st1 p.1)
    rw [stripRow_songRowOf, hsongVal1 p hp]
  have hrows2 : ((mapValues st2.songMap).map songRowOf).map stripRow =
      (mapKeys st2.songMap).map (fun k => coreRowOf (coreAt st1 k)) := by
    simp only [mapValues, mapKeys, List.map_map]
    refine List.map_congr_left ?_
    intro p hp
    show stripRow (songRowOf p.2) = coreRowOf (coreAt st1 p.1)
    rw [stripRow_songRowOf, hsongVal2 p hp]
  have hstripPerm : (((mapValues st1.songMap).map songRowOf).map
      stripRow).Perm (((mapValues st2.songMap).map songRowOf).map stripRow) := by
    rw [hrows1, hrows2]
    exact hkeysSong.map _
  have hdetCore : ∀ x ∈ ((mapValues st1.songMap).map songRowOf).map stripRow,
      ∀ y ∈ ((mapValues st2.songMap).map songRowOf).map stripRow,
      x.artist = y.artist → x.song = y.song → x = y := by
    intro x hx y hy hart hsong
    rw [hrows1] at hx
    rw [hrows2] at hy
    obtain ⟨k1, hk1, rfl⟩ := List.mem_map.mp hx
    obtain ⟨k2, hk2, rfl⟩ := List.mem_map.mp hy
    obtain ⟨hs1, ha1⟩ := coreAt_fields tz records1 hsep1 k1 hk1
    obtain ⟨hs2, ha2⟩ := coreAt_fields tz records2 hsep2 k2 hk2
    have hs2' : (coreAt st1 k2).song = (splitSongKey k2).1 := by
      rw [hcoreAt k2]
      exact hs2
    have ha2' : (coreAt st1 k2).artist = (splitSongKey k2).2 := by
      rw [hcoreAt k2]
      exact ha2
    have haa : (splitSongKey k1).2 = (splitSongKey k2).2 := by
      have h' : (coreAt st1 k1).artist = (coreAt st1 k2).artist := hart
      rw [← ha1, ← ha2', h']
    have hss : (splitSongKey k1).1 = (splitSongKey k2).1 := by
      have h' : (coreAt st1 k1).song = (coreAt st1 k2).song := hsong
      rw [← hs1, ← hs2', h']
    have hkk : k1 = k2 := by
      have hr1 := hrt1 k1 hk1
      have hr2 := hrt2 k2 hk2
      rw [keyRoundtrip] at hr1 hr2
      rw [← hr1, ← hr2, hss, haa]
    rw [hkk]
  have erows1 : (buildReport tz records1).songRows =
      jsSort compareSongsByPlayCount
        ((mapValues st1.songMap).map songRowOf) := rfl
  have erows2 : (buildReport tz records2).songRows =
      jsSort compareSongsByPlayCount
        ((mapValues st2.songMap).map songRowOf) := rfl
  have hSongRows : (buildReport tz records1).songRows.map stripRow =
      (buildReport tz records2).songRows.map stripRow := by
    rw [erows1, erows2]
    exact jsSort_strip_eq compareSongsByPlayCount compareCoreByPlayCount
      stripRow coreKeyPC compareSongsByPlayCount_strip
      compareCoreByPlayCount_le_iff _ _ hstripPerm
      (fun x hx y hy hkey =>
        hdetCore x hx y hy (coreKeyPC_fields hkey).1 (coreKeyPC_fields hkey).2)
  have hpermRows : ((buildReport tz records1).songRows.map stripRow).Perm
      ((buildReport tz records2).songRows.map stripRow) := by
    rw [hSongRows]
  have hdetRows : ∀ x ∈ (buildReport tz records1).songRows.map stripRow,
      ∀ y ∈ (buildReport tz records2).songRows.map stripRow,
      x.artist = y.artist → x.song = y.song → x = y := by
    intro x hx y hy
    refine hdetCore x ?_ y ?_
    · rw [erows1] at hx
      exact ((List.perm_insertionSort _ _).map stripRow).mem_iff.mp hx
    · rw [erows2] at hy
      exact ((List.perm_insertionSort _ _).map stripRow).mem_iff.mp hy
  have hsortPC2 : (jsSort compareSongsByPlayCount
        ((buildReport tz records1).songRows)).map stripRow =
      (jsSort compareSongsByPlayCount
        ((buildReport tz records2).songRows)).map stripRow :=
    jsSort_strip_eq compareSongsByPlayCount compareCoreByPlayCount stripRow
      coreKeyPC compareSongsByPlayCount_strip compareCoreByPlayCount_le_iff
      _ _ hpermRows
      (fun x hx y hy hkey =>
        hdetRows x hx y hy (coreKeyPC_fields hkey).1 (coreKeyPC_fields hkey).2)
  have hsortTime : (jsSort compareSongsByListenTime
        ((buildReport tz records1).songRows)).map stripRow =
      (jsSort compareSongsByListenTime
        ((buildReport tz records2).songRows)).map stripRow :=
    jsSort_strip_eq compareSongsByListenTime compareCoreByListenTime stripRow
      coreKeyTime compareSongsByListenTime_strip compareCoreByListenTime_le_iff
      _ _ hpermRows
      (fun x hx y hy hkey =>
        hdetRows x hx y hy (coreKeyTime_fields hkey).1
          (coreKeyTime_fields hkey).2)
  have hfs : ∀ l : List SongRow,
      (l.filter (fun row => 0 < row.skipCount)).map stripRow =
        (l.map stripRow).filter (fun c => 0 < c.skipCount) := by
    intro l
    induction l with
    | nil => rfl
    | cons r rest ih =>
      have hsk : (decide (0 < (stripRow r).skipCount)) =
          decide (0 < r.skipCount) := rfl
      rw [List.map_cons, List.filter_cons, List.filter_cons, hsk]
      by_cases h : (decide (0 < r.skipCount)) = true
      · rw [if_pos h, if_pos h, List.map_cons, ih]
      · rw [if_neg h, if_neg h, ih]
  have hfilterPerm : (((buildReport tz records1).songRows.filter
        (fun row => 0 < row.skipCount)).map stripRow).Perm
      (((buildReport tz records2).songRows.filter
        (fun row => 0 < row.skipCount)).map stripRow) := by
    rw [hfs, hfs, hSongRows]
  have hdetSkipRows : ∀ x ∈ ((buildReport tz records1).songRows.filter
        (fun row => 0 < row.skipCount)).map stripRow,
      ∀ y ∈ ((buildReport tz records2).songRows.filter
        (fun row => 0 < row.skipCount)).map stripRow,
      coreKeySkip x = coreKeySkip y → x = y := by
    intro x hx y hy hkey
    obtain ⟨rx, hrx, rfl⟩ := List.mem_map.mp hx
    obtain ⟨ry, hry, rfl⟩ := List.mem_map.mp hy
    refine hdetRows _ (List.mem_map.mpr ⟨rx, List.mem_of_mem_filter hrx, rfl⟩)
      _ (List.mem_map.mpr ⟨ry, List.mem_of_mem_filter hry, rfl⟩)
      (coreKeySkip_fields hkey).1 (coreKeySkip_fields hkey).2
  have hsortSkip : (jsSort compareSongsBySkipCount
        ((buildReport tz records1).songRows.filter
          (fun row => 0 < row.skipCount))).map stripRow =
      (jsSort compareSongsBySkipCount
        ((buildReport tz records2).songRows.filter
          (fun row => 0 < row.skipCount))).map stripRow :=
    jsSort_strip_eq compareSongsBySkipCount compareCoreBySkipCount stripRow
      coreKeySkip compareSongsBySkipCount_strip compareCoreBySkipCount_le_iff
      _ _ hfilterPerm hdetSkipRows
  have etop10pc1 : (buildReport tz records1).top10ByPlayCount =
      (jsSort compareSongsByPlayCount
        (buildReport tz records1).songRows).take 10 := rfl
  have etop10pc2 : (buildReport tz records2).top10ByPlayCount =
      (jsSort compareSongsByPlayCount
        (buildReport tz records2).songRows).take 10 := rfl
  have etop10t1 : (buildReport tz records1).top10ByTime =
      (jsSort compareSongsByListenTime
        (buildReport tz records1).songRows).take 10 := rfl
  have etop10t2 : (buildReport tz records2).top10ByTime =
      (jsSort compareSongsByListenTime
        (buildReport tz records2).songRows).take 10 := rfl
  have etop10s1 : (buildReport tz records1).top10Skipped =
      (jsSort compareSongsBySkipCount
        ((buildReport tz records1).songRows.filter
          (fun row => 0 < row.skipCount))).take 10 := rfl
  have etop10s2 : (buildReport tz records2).top10Skipped =
      (jsSort compareSongsBySkipCount
        ((buildReport tz records2).songRows.filter
          (fun row => 0 < row.skipCount))).take 10 := rfl
  have hT10PC : (buildReport tz records1).top10ByPlayCount.map stripRow =
      (buildReport tz records2).top10ByPlayCount.map stripRow := by
    rw [etop10pc1, etop10pc2, List.map_take, List.map_take, hsortPC2]
  have hT10T : (buildReport tz records1).top10ByTime.map stripRow =
      (buildReport tz records2).top10ByTime.map stripRow := by
    rw [etop10t1, etop10t2, List.map_take, List.map_take, hsortTime]
  have hT10S : (buildReport tz records1).top10Skipped.map stripRow =
      (buildReport tz records2).top10Skipped.map stripRow := by
    rw [etop10s1, etop10s2, List.map_take, List.map_take, hsortSkip]
  have hmmVal1 : ∀ p ∈ st1.monthlyMs, p.2 = monthMsAt st1 p.1 := by
    intro p hp
    have hg : mapGet st1.monthlyMs p.1 = some p.2 :=
      mapGet_eq_some_of_mem hnd1mm (by rw [Prod.mk.eta]; exact hp)
    unfold monthMsAt
    rw [hg]
    rfl
  have hmmVal2 : ∀ p ∈ st2.monthlyMs, p.2 = monthMsAt st1 p.1 := by
    intro p hp
    have hg : mapGet st2.monthlyMs p.1 = some p.2 :=
      mapGet_eq_some_of_mem hnd2mm (by rw [Prod.mk.eta]; exact hp)
    unfold monthMsAt
    rw [hmmF p.1, hg]
    rfl
  have hMMperm : st1.monthlyMs.Perm st2.monthlyMs :=
    assoc_perm_of_get hmmVal1 hmmVal2 hkeysMM
  have hMMsort : jsSort (fun a b : String × ℕ => jsStrCmp a.1 b.1)
        st1.monthlyMs =
      jsSort (fun a b : String × ℕ => jsStrCmp a.1 b.1) st2.monthlyMs := by
    refine jsSort_eq_of_perm _ (fun p : String × ℕ => p.1)
      (fun x y => jsStrCmp_le_zero_iff x.1 y.1) _ _ hMMperm ?_
    intro x hx y hy hxy
    have hxy' : x.1 = y.1 := hxy
    refine Prod.ext hxy' ?_
    rw [hmmVal1 x hx, hmmVal2 y hy, hxy']
  have emm1 : (buildReport tz records1).monthlyMinutesRows =
      (jsSort (fun a b : String × ℕ => jsStrCmp a.1 b.1) st1.monthlyMs).map
        (fun p =>
          ({ month := p.1, monthLabel := formatMonthLabel p.1, totalMs := p.2,
             minutes := (p.2 : ℚ) / 60000,
             hours := (p.2 : ℚ) / 3600000 } : MonthlyRow)) := rfl
  have emm2 : (buildReport tz records2).monthlyMinutesRows =
      (jsSort (fun a b : String × ℕ => jsStrCmp a.1 b.1) st2.monthlyMs).map
        (fun p =>
          ({ month := p.1, monthLabel := formatMonthLabel p.1, totalMs := p.2,
             minutes := (p.2 : ℚ) / 60000,
             hours := (p.2 : ℚ) / 3600000 } : MonthlyRow)) := rfl
  have hMonthly : (buildReport tz records1).monthlyMinutesRows =
      (buildReport tz records2).monthlyMinutesRows := by
    rw [emm1, emm2, hMMsort]
  have hyVal1 : ∀ p ∈ st1.yearlyMs, p.2 = yearMsAt st1 p.1 := by
    intro p hp
    have hg : mapGet st1.yearlyMs p.1 = some p.2 :=
      mapGet_eq_some_of_mem hnd1y (by rw [Prod.mk.eta]; exact hp)
    unfold yearMsAt
    rw [hg]
    rfl
  have hyVal2 : ∀ p ∈ st2.yearlyMs, p.2 = yearMsAt st1 p.1 := by
    intro p hp
    have hg : mapGet st2.yearlyMs p.1 = some p.2 :=
      mapGet_eq_some_of_mem hnd2y (by rw [Prod.mk.eta]; exact hp)
    unfold yearMsAt
    rw [hyF p.1, hg]
    rfl
  have hYperm : st1.yearlyMs.Perm st2.yearlyMs :=
    assoc_perm_of_get hyVal1 hyVal2 hkeysY
  have hYsort : jsSort (fun a b : ℤ × ℕ => a.1 - b.1) st1.yearlyMs =
      jsSort (fun a b : ℤ × ℕ => a.1 - b.1) st2.yearlyMs := by
    refine jsSort_eq_of_perm _ (fun p : ℤ × ℕ => p.1)
      (fun x y => sub_nonpos) _ _ hYperm ?_
    intro x hx y hy hxy
    have hxy' : x.1 = y.1 := hxy
    refine Prod.ext hxy' ?_
    rw [hyVal1 x hx, hyVal2 y hy, hxy']
  have eyy1 : (buildReport tz records1).yearlyMinutesRows =
      (jsSort (fun a b : ℤ × ℕ => a.1 - b.1) st1.yearlyMs).map
        (fun p =>
          ({ year := p.1, totalMs := p.2, minutes := (p.2 : ℚ) / 60000,
             hours := (p.2 : ℚ) / 3600000 } : YearlyRow)) := rfl
  have eyy2 : (buildReport tz records2).yearlyMinutesRows =
      (jsSort (fun a b : ℤ × ℕ => a.1 - b.1) st2.yearlyMs).map
        (fun p =>
          ({ year := p.1, totalMs := p.2, minutes := (p.2 : ℚ) / 60000,
             hours := (p.2 : ℚ) / 3600000 } : YearlyRow)) := rfl
  have hYearly : (buildReport tz records1).yearlyMinutesRows =
      (buildReport tz records2).yearlyMinutesRows := by
    rw [eyy1, eyy2, hYsort]
  have epk1 : (buildReport tz records1).peakMonth =
      (pickPeak (buildReport tz records1).monthlyMinutesRows
        (fun row => row.totalMs) (fun row => row.month)).map
        (fun best =>
          ({ month := best.month, monthLabel := best.monthLabel,
             totalMs := best.totalMs,
             minutes := best.minutes } : PeakMonthInfo)) := rfl
  have epk2 : (buildReport tz records2).peakMonth =
      (pickPeak (buildReport tz records2).monthlyMinutesRows
        (fun row => row.totalMs) (fun row => row.month)).map
        (fun best =>
          ({ month := best.month, monthLabel := best.monthLabel,
             totalMs := best.totalMs,
             minutes := best.minutes } : PeakMonthInfo)) := rfl
  have hPeakM : (buildReport tz records1).peakMonth =
      (buildReport tz records2).peakMonth := by
    rw [epk1, epk2, hMonthly]
  have epy1 : (buildReport tz records1).peakYear =
      (pickPeak (buildReport tz records1).yearlyMinutesRows
        (fun row => row.totalMs) (fun row => toString row.year)).map
        (fun best =>
          ({ year := best.year, totalMs := best.totalMs,
             minutes := best.minutes } : PeakYearInfo)) := rfl
  have epy2 : (buildReport tz records2).peakYear =
      (pickPeak (buildReport tz records2).yearlyMinutesRows
        (fun row => row.totalMs) (fun row => toString row.year)).map
        (fun best =>
          ({ year := best.year, totalMs := best.totalMs,
             minutes := best.minutes } : PeakYearInfo)) := rfl
  have hPeakY : (buildReport tz records1).peakYear =
      (buildReport tz records2).peakYear := by
    rw [epy1, epy2, hYearly]
  have edr1 : (buildReport tz records1).dataRange =
      (match (buildReport tz records1).monthlyMinutesRows.head?,
          (buildReport tz records1).monthlyMinutesRows.getLast? with
        | some firstRow, some lastRow =>
          firstRow.monthLabel ++ " - " ++ lastRow.monthLabel
        | _, _ => "N/A") := rfl
  have edr2 : (buildReport tz records2).dataRange =
      (match (buildReport tz records2).monthlyMinutesRows.head?,
          (buildReport tz records2).monthlyMinutesRows.getLast? with
        | some firstRow, some lastRow =>
          firstRow.monthLabel ++ " - " ++ lastRow.monthLabel
        | _, _ => "N/A") := rfl
  have hDR : (buildReport tz records1).dataRange =
      (buildReport tz records2).dataRange := by
    rw [edr1, edr2, hMonthly]
  have hAa : ∀ a, artistAt st1 a = artistAt st2 a := by
    intro a
    unfold artistAt
    rw [hartF a]
  have haVal1 : ∀ p ∈ st1.artistMap, p.2 = artistAt st1 p.1 := by
    intro p hp
    have hg : mapGet st1.artistMap p.1 = some p.2 :=
      mapGet_eq_some_of_mem hnd1a (by rw [Prod.mk.eta]; exact hp)
    unfold artistAt
    rw [hg]
    rfl
  have haVal2 : ∀ p ∈ st2.artistMap, p.2 = artistAt st1 p.1 := by
    intro p hp
    have hg : mapGet st2.artistMap p.1 = some p.2 :=
      mapGet_eq_some_of_mem hnd2a (by rw [Prod.mk.eta]; exact hp)
    unfold artistAt
    rw [hartF p.1, hg]
    rfl
  have hAperm : st1.artistMap.Perm st2.artistMap :=
    assoc_perm_of_get haVal1 haVal2 hkeysArtist
  have hArows : ((mapValues st1.artistMap).map artistRowOf).Perm
      ((mapValues st2.artistMap).map artistRowOf) :=
    (hAperm.map Prod.snd).map artistRowOf
  have hdetArtist : ∀ x ∈ (mapValues st1.artistMap).map artistRowOf,
      ∀ y ∈ (mapValues st2.artistMap).map artistRowOf,
      artistRowKey x = artistRowKey y → x = y := by
    intro x hx y hy hkey
    obtain ⟨e1, he1, rfl⟩ := List.mem_map.mp hx
    obtain ⟨e2, he2, rfl⟩ := List.mem_map.mp hy
    obtain ⟨p1, hp1, rfl⟩ := List.mem_map.mp he1
    obtain ⟨p2, hp2, rfl⟩ := List.mem_map.mp he2
    have hv1 := haVal1 p1 hp1
    have hv2 := haVal2 p2 hp2
    have hart1 : (artistRowOf p1.2).artist = p1.1 := by
      show p1.2.artist = p1.1
      rw [hv1]
      show (artistAt st1 p1.1).artist = p1.1
      exact artistAt_artist tz records1 p1.1
    have hart2 : (artistRowOf p2.2).artist = p2.1 := by
      show p2.2.artist = p2.1
      rw [hv2]
      show (artistAt st1 p2.1).artist = p2.1
      rw [hAa p2.1]
      exact artistAt_artist tz records2 p2.1
    have hkeq : p1.1 = p2.1 := by
      have h := artistRowKey_fields hkey
      rw [hart1, hart2] at h
      exact h
    show artistRowOf p1.2 = artistRowOf p2.2
    rw [hv1, hv2, hkeq]
  have hAsort : jsSort compareArtistsByTime
        ((mapValues st1.artistMap).map artistRowOf) =
      jsSort compareArtistsByTime
        ((mapValues st2.artistMap).map artistRowOf) :=
    jsSort_eq_of_perm _ artistRowKey compareArtistsByTime_le_iff _ _
      hArows hdetArtist
  have eta1 : (buildReport tz records1).topArtistsByMinutes =
      (jsSort compareArtistsByTime
        ((mapValues st1.artistMap).map artistRowOf)).take 10 := rfl
  have eta2 : (buildReport tz records2).topArtistsByMinutes =
      (jsSort compareArtistsByTime
        ((mapValues st2.artistMap).map artistRowOf)).take 10 := rfl
  have hArtists : (buildReport tz records1).topArtistsByMinutes =
      (buildReport tz records2).topArtistsByMinutes := by
    rw [eta1, eta2, hAsort]
  have et31 : (buildReport tz records1).top3PerMonthRows =
      (jsSort jsStrCmp (mapKeys st1.monthlySongMap)).flatMap (fun month =>
        match mapGet st1.monthlySongMap month with
        | none => []
        | some monthSongs =>
          ((jsSort compareMonthlySongRank monthSongs).take 3).enum.map
            (fun p =>
              ({ month := month, monthLabel := formatMonthLabel month,
                 rank := p.1 + 1, song := (splitSongKey p.2.1).1,
                 artist := (splitSongKey p.2.1).2,
                 playCount := p.2.2.playCount,
                 minutesListened := (p.2.2.totalMs : ℚ) / 60000 } :
                   MonthRankRow))) := rfl
  have et32 : (buildReport tz records2).top3PerMonthRows =
      (jsSort jsStrCmp (mapKeys st2.monthlySongMap)).flatMap (fun month =>
        match mapGet st2.monthlySongMap month with
        | none => []
        | some monthSongs =>
          ((jsSort compareMonthlySongRank monthSongs).take 3).enum.map
            (fun p =>
              ({ month := month, monthLabel := formatMonthLabel month,
                 rank := p.1 + 1, song := (splitSongKey p.2.1).1,
                 artist := (splitSongKey p.2.1).2,
                 playCount := p.2.2.playCount,
                 minutesListened := (p.2.2.totalMs : ℚ) / 60000 } :
                   MonthRankRow))) := rfl
  have hMonthsSort : jsSort jsStrCmp (mapKeys st1.monthlySongMap) =
      jsSort jsStrCmp (mapKeys st2.monthlySongMap) :=
    jsSort_eq_of_perm jsStrCmp (fun s : String => s)
      (fun x y => jsStrCmp_le_zero_iff x y) _ _ hkeysMonth
      (fun x _ y _ h => h)
  have hInner : ∀ mk : String,
      (match mapGet st1.monthlySongMap mk with
        | none => ([] : List MonthRankRow)
        | some monthSongs =>
          ((jsSort compareMonthlySongRank monthSongs).take 3).enum.map
            (fun p : ℕ × (String × MonthSongEntry) =>
              ({ month := mk, monthLabel := formatMonthLabel mk,
                 rank := p.1 + 1, song := (splitSongKey p.2.1).1,
                 artist := (splitSongKey p.2.1).2,
                 playCount := p.2.2.playCount,
                 minutesListened := (p.2.2.totalMs : ℚ) / 60000 } :
                   MonthRankRow))) =
      (match mapGet st2.monthlySongMap mk with
        | none => ([] : List MonthRankRow)
        | some monthSongs =>
          ((jsSort compareMonthlySongRank monthSongs).take 3).enum.map
            (fun p : ℕ × (String × MonthSongEntry) =>
              ({ month := mk, monthLabel := formatMonthLabel mk,
                 rank := p.1 + 1, song := (splitSongKey p.2.1).1,
                 artist := (splitSongKey p.2.1).2,
                 playCount := p.2.2.playCount,
                 minutesListened := (p.2.2.totalMs : ℚ) / 60000 } :
                   MonthRankRow))) := by
    intro mk
    rcases hg1 : mapGet st1.monthlySongMap mk with _ | I1
    · have hg2 : mapGet st2.monthlySongMap mk = none := (hmkF mk).mp hg1
      rw [hg2]
    · rcases hg2 : mapGet st2.monthlySongMap mk with _ | I2
      · exfalso
        have h0 := (hmkF mk).mpr hg2
        rw [hg1] at h0
        exact Option.noConfusion h0
      · obtain ⟨hndI1, hrtI1⟩ := hin1 (mk, I1) (mem_of_mapGet_eq_some hg1)
        obtain ⟨hndI2, hrtI2⟩ := hin2 (mk, I2) (mem_of_mapGet_eq_some hg2)
        have hIF : ∀ k, mapGet I1 k = mapGet I2 k := by
          intro k
          have h := hmsF mk k
          rw [monthSongLookup, monthSongLookup, hg1, hg2] at h
          exact h
        have hkeysI : (mapKeys I1).Perm (mapKeys I2) :=
          mapKeys_perm_of_get hndI1 hndI2 (fun k => by rw [hIF k])
        have hv1I : ∀ p ∈ I1, p.2 = monthSongAt st1 mk p.1 := by
          intro p hp
          have hgp : mapGet I1 p.1 = some p.2 :=
            mapGet_eq_some_of_mem hndI1 (by rw [Prod.mk.eta]; exact hp)
          unfold monthSongAt monthSongLookup
          rw [hg1]
          show p.2 = (mapGet I1 p.1).getD ⟨0, 0⟩
          rw [hgp]
          rfl
        have hv2I : ∀ p ∈ I2, p.2 = monthSongAt st1 mk p.1 := by
          intro p hp
          have hgp : mapGet I2 p.1 = some p.2 :=
            mapGet_eq_some_of_mem hndI2 (by rw [Prod.mk.eta]; exact hp)
          unfold monthSongAt
          rw [hmsF mk p.1]
          unfold monthSongLookup
          rw [hg2]
          show p.2 = (mapGet I2 p.1).getD ⟨0, 0⟩
          rw [hgp]
          rfl
        have hIperm : I1.Perm I2 := assoc_perm_of_get hv1I hv2I hkeysI
        have hdetI : ∀ x ∈ I1, ∀ y ∈ I2,
            monthlyRankKey x = monthlyRankKey y → x = y := by
          intro x hx y hy hkey
          obtain ⟨hss, haa⟩ := monthlyRankKey_fields hkey
          have hrx := hrtI1 x.1 (List.mem_map.mpr ⟨x, hx, rfl⟩)
          have hry := hrtI2 y.1 (List.mem_map.mpr ⟨y, hy, rfl⟩)
          rw [keyRoundtrip] at hrx hry
          have hkk : x.1 = y.1 := by
            rw [← hrx, ← hry, hss, haa]
          refine Prod.ext hkk ?_
          rw [hv1I x hx, hv2I y hy, hkk]
        have hI12 : jsSort compareMonthlySongRank I1 =
            jsSort compareMonthlySongRank I2 :=
          jsSort_eq_of_perm _ monthlyRankKey compareMonthlySongRank_le_iff
            _ _ hIperm hdetI
        show ((jsSort compareMonthlySongRank I1).take 3).enum.map _ =
          ((jsSort compareMonthlySongRank I2).take 3).enum.map _
        rw [hI12]
  have hTop3 : (buildReport tz records1).top3PerMonthRows =
      (buildReport tz records2).top3PerMonthRows := by
    rw [et31, et32, hMonthsSort]
    exact List.flatMap_congr (fun mk _ => hInner mk)
  have hUsed : st1.songRecordsUsed = st2.songRecordsUsed := by
    rw [hst1, hst2, (runPass_counters tz records1 initState).1,
      (runPass_counters tz records2 initState).1,
      List.Perm.countP_eq (accepted tz) hperm]
  have hNonSong : st1.ignoredNonSong = st2.ignoredNonSong := by
    rw [hst1, hst2, (runPass_counters tz records1 initState).2.1,
      (runPass_counters tz records2 initState).2.1,
      List.Perm.countP_eq (fun r => ! isSongRecord r) hperm]
  have hBadTs : st1.ignoredBadTimestamp = st2.ignoredBadTimestamp := by
    rw [hst1, hst2, (runPass_counters tz records1 initState).2.2,
      (runPass_counters tz records2 initState).2.2,
      List.Perm.countP_eq
        (fun r => isSongRecord r && (parseTimestamp tz r.ts).isNone) hperm]
  have hUnique : (buildReport tz records1).songRows.length =
      (buildReport tz records2).songRows.length := by
    have h1 : ((buildReport tz records1).songRows.map stripRow).length =
        ((buildReport tz records2).songRows.map stripRow).length := by
      rw [hSongRows]
    simpa using h1
  have hTotalMs : (buildReport tz records1).songRows.foldl
        (fun sum row => sum + row.totalMs) 0 =
      (buildReport tz records2).songRows.foldl
        (fun sum row => sum + row.totalMs) 0 := by
    rw [foldl_totalMs, foldl_totalMs, hSongRows]
  exact ⟨hperm.length_eq, hUsed, hNonSong, hBadTs, hUnique, hTotalMs,
    congrArg (fun n : ℕ => (n : ℚ) / 60000) hTotalMs,
    congrArg (fun n : ℕ => (n : ℚ) / 3600000) hTotalMs,
    hPeakM, hPeakY, hDR, hSongRows, hT10PC, hT10T, hT10S, hTop3,
    hMonthly, hYearly, hArtists⟩

/-- **C9** (counterexample to the unrestricted claim).  The two orders of
the same two records are permutations of each other, yet the reported
song table differs beyond the representative album/URI fields: the
`song` and `artist` columns themselves change, because the two records
collide on one composite key through the embedded U+001F separator. -/
theorem buildReport_not_perm_invariant :
    [sepRecordA, sepRecordB].Perm [sepRecordB, sepRecordA] ∧
    (buildReport 0 [sepRecordA, sepRecordB]).songRows.map
        (fun r => (r.song, r.artist)) ≠
      (buildReport 0 [sepRecordB, sepRecordA]).songRows.map
        (fun r => (r.song, r.artist)) :=
  ⟨List.Perm.swap sepRecordB sepRecordA [], by decide⟩

/-- Witness: the corrected permutation-invariance theorem applied to a
concrete two-record shuffle of separator-free songs. -/
theorem buildReport_perm_invariance_witness :
    ([demoRecord, demoRecordB].Perm [demoRecordB, demoRecord] ∧
      ∀ r ∈ [demoRecord, demoRecordB],
        KEY_SEP ∉ (cleanString r.master_metadata_track_name).toList) ∧
    ((buildReport 0 [demoRecord, demoRecordB]).totalRecordsRead =
        (buildReport 0 [demoRecordB, demoRecord]).totalRecordsRead ∧
      (buildReport 0 [demoRecord, demoRecordB]).songRecordsUsed =
        (buildReport 0 [demoRecordB, demoRecord]).songRecordsUsed ∧
      (buildReport 0 [demoRecord, demoRecordB]).ignoredNonSong =
        (buildReport 0 [demoRecordB, demoRecord]).ignoredNonSong ∧
      (buildReport 0 [demoRecord, demoRecordB]).ignoredBadTimestamp =
        (buildReport 0 [demoRecordB, demoRecord]).ignoredBadTimestamp ∧
      (buildReport 0 [demoRecord, demoRecordB]).uniqueSongs =
        (buildReport 0 [demoRecordB, demoRecord]).uniqueSongs ∧
      (buildReport 0 [demoRecord, demoRecordB]).totalSongMs =
        (buildReport 0 [demoRecordB, demoRecord]).totalSongMs ∧
      (buildReport 0 [demoRecord, demoRecordB]).totalMinutes =
        (buildReport 0 [demoRecordB, demoRecord]).totalMinutes ∧
      (buildReport 0 [demoRecord, demoRecordB]).totalHours =
        (buildReport 0 [demoRecordB, demoRecord]).totalHours ∧
      (buildReport 0 [demoRecord, demoRecordB]).peakMonth =
        (buildReport 0 [demoRecordB, demoRecord]).peakMonth ∧
      (buildReport 0 [demoRecord, demoRecordB]).peakYear =
        (buildReport 0 [demoRecordB, demoRecord]).peakYear ∧
      (buildReport 0 [demoRecord, demoRecordB]).dataRange =
        (buildReport 0 [demoRecordB, demoRecord]).dataRange ∧
      (buildReport 0 [demoRecord, demoRecordB]).songRows.map stripRow =
        (buildReport 0 [demoRecordB, demoRecord]).songRows.map stripRow ∧
      (buildReport 0 [demoRecord, demoRecordB]).top10ByPlayCount.map stripRow =
        (buildReport 0 [demoRecordB, demoRecord]).top10ByPlayCount.map stripRow ∧
      (buildReport 0 [demoRecord, demoRecordB]).top10ByTime.map stripRow =
        (buildReport 0 [demoRecordB, demoRecord]).top10ByTime.map stripRow ∧
      (buildReport 0 [demoRecord, demoRecordB]).top10Skipped.map stripRow =
        (buildReport 0 [demoRecordB, demoRecord]).top10Skipped.map stripRow ∧
      (buildReport 0 [demoRecord, demoRecordB]).top3PerMonthRows =
        (buildReport 0 [demoRecordB, demoRecord]).top3PerMonthRows ∧
      (buildReport 0 [demoRecord, demoRecordB]).monthlyMinutesRows =
        (buildReport 0 [demoRecordB, demoRecord]).monthlyMinutesRows ∧
      (buildReport 0 [demoRecord, demoRecordB]).yearlyMinutesRows =
        (buildReport 0 [demoRecordB, demoRecord]).yearlyMinutesRows ∧
      (buildReport 0 [demoRecord, demoRecordB]).topArtistsByMinutes =
        (buildReport 0 [demoRecordB, demoRecord]).topArtistsByMinutes) :=
  ⟨⟨List.Perm.swap demoRecordB demoRecord [], by decide⟩,
    buildReport_perm_invariance 0 [demoRecord, demoRecordB]
      [demoRecordB, demoRecord] (List.Perm.swap demoRecordB demoRecord [])
      (by decide)⟩
